import Mathlib

/-!
The package httplog: the response recorder, the sink registry and the
interception pipeline.

A shallow embedding of the Go package `httplog` (files `status_writer.go`,
`middleware.go`, `logger.go`, `output-console.go`).

Modelling conventions
* A Go `int` / `int64` value is an `Int`; the one addition of the package,
  `w.length += n`, wraps around at 64 bits as Go's does (`wrapInt`).
* An `interface{}` value is `Option Value`: `none` is the nil interface.
* A Go panic is the `error` side of `Except Value`; the payload is the value
  `recover()` yields, which is never nil while a goroutine panics (`panic(nil)`
  raises a `*runtime.PanicNilError`).
* Collaborators that live outside the package (the wrapped `http.ResponseWriter`,
  the inner handler, the sink, the uuid generator, the clock) are parameters.
  Their methods are total functions: a method with a pointer receiver maps the
  state before the call to the state after it.
* The exported package variable `Resources` is mutable: the pipeline is given
  the value it holds at each point where it is read (`Flags`).
* `go f(x)` evaluates `f` and `x` in the calling goroutine; the model records the
  call in the order in which it is launched.
-/

namespace httplog

/-! ## Dynamic values -/

/-- A byte slice. -/
abbrev Bytes := List UInt8

/-- The non-nil dynamic values the model distinguishes.  `err` stands for an
error value that is a pointer to a struct without exported fields (for instance
`*errors.errorString` or `*runtime.TypeAssertionError`), `plainError` for a
run-time error of string kind (`runtime.plainError`, `runtime.errorString`), and
`chan` for a value that `encoding/json` cannot encode. -/
inductive Value where
  | str (s : String)
  | int (n : Int)
  | bytes (b : Bytes)
  | err (msg : String)
  | plainError (msg : String)
  | chan (id : Nat)
  deriving DecidableEq, Repr

/-- An `interface{}` value; `none` is nil. -/
abbrev Any := Option Value

/-! ## Machine integers -/

/-- The value a 64-bit Go `int` holds after an arithmetic result `x`: `x` reduced
to the range from -2^63 to 2^63 - 1 by two's-complement wrap-around. -/
def wrapInt (x : Int) : Int :=
  (x + 9223372036854775808) % 18446744073709551616 - 9223372036854775808

/-- `math.MaxInt64`. -/
def MaxInt64 : Int := 9223372036854775807

/-! ## status_writer.go -/

/-- The implementation behind the wrapped `http.ResponseWriter` interface value,
as a state machine on its own state `σ`.  `Write` returns the new state, the
byte count `n` and the error (`none` is nil). -/
structure WriterImpl (σ : Type) where
  WriteHeader : σ → Int → σ
  Write : σ → Bytes → σ × Int × Option String

/-- `type statusWriter struct { http.ResponseWriter; status int; length int }`.
The embedded writer is represented by its current state. -/
structure statusWriter (σ : Type) where
  ResponseWriter : σ
  status : Int
  length : Int
  deriving DecidableEq, Repr

/-- `func (w *statusWriter) WriteHeader(status int)`. -/
def statusWriter.WriteHeader {σ : Type} (W : WriterImpl σ) (w : statusWriter σ)
    (status : Int) : statusWriter σ :=
  let w1 := { w with status := status }
  { w1 with ResponseWriter := W.WriteHeader w1.ResponseWriter status }

/-- `func (w *statusWriter) Write(b []byte) (int, error)`: the recorder after the
call, then the two results. -/
def statusWriter.Write {σ : Type} (W : WriterImpl σ) (w : statusWriter σ)
    (b : Bytes) : statusWriter σ × Int × Option String :=
  let w1 := if w.status = 0 then { w with status := 200 } else w
  let res := W.Write w1.ResponseWriter b
  let n := res.2.1
  let err := res.2.2
  let w2 := { w1 with ResponseWriter := res.1 }
  ({ w2 with length := wrapInt (w2.length + n) }, n, err)

/-- The recorder `&statusWriter{ResponseWriter: w}` built at pipeline entry. -/
def statusWriter.fresh {σ : Type} (w : σ) : statusWriter σ :=
  { ResponseWriter := w, status := 0, length := 0 }

/-- One call made on the recorder. -/
inductive Call where
  | WriteHeader (code : Int)
  | Write (b : Bytes)
  deriving DecidableEq, Repr

/-- Whether the call is a `WriteHeader`. -/
def Call.isWriteHeader : Call → Bool
  | .WriteHeader _ => true
  | .Write _ => false

/-- Whether the call is a `Write`. -/
def Call.isWrite : Call → Bool
  | .WriteHeader _ => false
  | .Write _ => true

/-- The length of the slice a call passes to `Write` (0 for `WriteHeader`). -/
def Call.size : Call → Int
  | .WriteHeader _ => 0
  | .Write b => b.length

/-- Apply a sequence of calls to a recorder, in order.  The second component
lists the byte counts the `Write` calls returned. -/
def applyCalls {σ : Type} (W : WriterImpl σ) :
    List Call → statusWriter σ → statusWriter σ × List Int
  | [], w => (w, [])
  | .WriteHeader code :: rest, w => applyCalls W rest (w.WriteHeader W code)
  | .Write b :: rest, w =>
    let r := w.Write W b
    let out := applyCalls W rest r.1
    (out.1, r.2.1 :: out.2)

/-- The same calls made on the wrapped writer itself, in order: its state
afterwards and the byte counts its `Write` returned. -/
def forwardCalls {σ : Type} (W : WriterImpl σ) : List Call → σ → σ × List Int
  | [], s => (s, [])
  | .WriteHeader code :: rest, s => forwardCalls W rest (W.WriteHeader s code)
  | .Write b :: rest, s =>
    let r := W.Write s b
    let out := forwardCalls W rest r.1
    (out.1, r.2.1 :: out.2)

/-- A wrapped writer that accepts every slice in full and keeps no state. -/
def acceptAll : WriterImpl Unit where
  WriteHeader := fun s _ => s
  Write := fun s b => (s, b.length, none)

/-- A wrapped writer that reports `math.MaxInt64` bytes for every `Write`. -/
def maxCountWriter : WriterImpl Unit where
  WriteHeader := fun s _ => s
  Write := fun s _ => (s, MaxInt64, none)

/-! ## middleware.go: the sink registry -/

/-- A Go `map[string]V` value: `none` is the nil map, `some kvs` an allocated
map holding one pair per key. -/
abbrev GoMap (V : Type) := Option (List (String × V))

/-- The entry stored under `k`, if there is one. -/
def GoMap.entry {V : Type} (m : GoMap V) (k : String) : Option V :=
  match m with
  | none => none
  | some kvs => (kvs.find? (fun kv => kv.1 == k)).map Prod.snd

/-- The index expression `m[k]`: the stored entry, or the element type's zero
value when the key is absent or the map is nil.  It never panics. -/
def GoMap.index {V : Type} (zero : V) (m : GoMap V) (k : String) : V :=
  (m.entry k).getD zero

/-- The assignment `m[k] = v`: a run-time panic on the nil map, otherwise the
map with the entry for `k` replaced. -/
def GoMap.assign {V : Type} (m : GoMap V) (k : String) (v : V) : Except Value (GoMap V) :=
  match m with
  | none => .error (.plainError "assignment to entry in nil map")
  | some kvs => .ok (some ((k, v) :: kvs.filter (fun kv => !(kv.1 == k))))

/-- The package-level variables `middlewares` and `defaultMiddleware`.  `M` is
the type of non-nil sinks, so a `Middleware` interface value is `Option M`. -/
structure Registry (M : Type) where
  middlewares : GoMap (Option M)
  defaultMiddleware : Option M

/-- The state in which the package starts: `var middlewares map[string]Middleware`
has no initialiser and nothing else assigns the variable, and
`defaultMiddleware` is initialised with `NewOutputConsole()`. -/
def Registry.initial {M : Type} (console : M) : Registry M :=
  { middlewares := none, defaultMiddleware := some console }

/-- `func RegisterMiddleware(name string, m Middleware)`. -/
def RegisterMiddleware {M : Type} (name : String) (m : Option M) (g : Registry M) :
    Except Value (Registry M) :=
  match g.middlewares.assign name m with
  | .error e => .error e
  | .ok mws => .ok { g with middlewares := mws }

/-- `func Use(name string)`. -/
def Use {M : Type} (name : String) (g : Registry M) : Registry M :=
  let a := g.middlewares.index none name
  if a.isSome then { g with defaultMiddleware := a } else g

/-- `func Default() Middleware`. -/
def Default {M : Type} (g : Registry M) : Option M :=
  g.defaultMiddleware

/-- A call of the registry API. -/
inductive RegistryCall (M : Type) where
  | RegisterMiddleware (name : String) (m : Option M)
  | Use (name : String)

/-- Run one call of the registry API. -/
def RegistryCall.run {M : Type} : RegistryCall M → Registry M → Except Value (Registry M)
  | .RegisterMiddleware name m, g => httplog.RegisterMiddleware name m g
  | .Use name, g => .ok (httplog.Use name g)

/-- Run calls of the registry API in order; the first panic ends the run. -/
def runCalls {M : Type} : List (RegistryCall M) → Registry M → Except Value (Registry M)
  | [], g => .ok g
  | c :: rest, g =>
    match c.run g with
    | .error e => .error e
    | .ok g1 => runCalls rest g1

/-! ## logger.go: context and request -/

/-- A context key.  Go compares keys with their dynamic type, so the
`ContextName` value `ContextName("params")` and the plain string `"params"` are
different keys. -/
inductive CtxKey where
  | ContextName (s : String)
  | string (s : String)
  deriving DecidableEq, Repr

/-- A `context.Context`, newest binding first. -/
abbrev Context := List (CtxKey × Any)

/-- `context.WithValue(ctx, key, val)`. -/
def Context.WithValue (ctx : Context) (key : CtxKey) (val : Any) : Context :=
  (key, val) :: ctx

/-- `ctx.Value(key)`: the newest binding of `key`, nil when there is none. -/
def Context.Value : Context → CtxKey → Any
  | [], _ => none
  | (k, v) :: rest, key => if k = key then v else Context.Value rest key

/-- `ContextRequestID = ContextName("request_id")`. -/
def ContextRequestID : CtxKey := .ContextName "request_id"

/-- `ContextRouteName = ContextName("route_name")`. -/
def ContextRouteName : CtxKey := .ContextName "route_name"

/-- `ContextParams = ContextName("params")`. -/
def ContextParams : CtxKey := .ContextName "params"

/-- `ResourceRequestID = 2`. -/
def ResourceRequestID : Int := 2

/-- `ResourceDuration = 4`. -/
def ResourceDuration : Int := 4

/-- `ResourceName = 8`. -/
def ResourceName : Int := 8

/-- `ResourceParams = 16`. -/
def ResourceParams : Int := 16

/-- The initial value of the variable `Resources`:
`ResourceRequestID | ResourceDuration | ResourceName | ResourceParams`. -/
def ResourcesDefault : Int :=
  Int.lor (Int.lor (Int.lor ResourceRequestID ResourceDuration) ResourceName) ResourceParams

/-- The test `(Resources & bit) != 0`. -/
def enabled (Resources bit : Int) : Bool :=
  decide (Int.land Resources bit ≠ 0)

/-- What the pipeline reads of a `*http.Request`.  `RemoteIP` is the result of
`realip.FromRequest(r)`, `Dump` the result of `httputil.DumpRequest(r, true)`
(`none` when it returns an error). -/
structure Request where
  Method : String
  Path : String
  RawQuery : String
  UserAgent : String
  RemoteIP : String
  Dump : Option Bytes
  ctx : Context
  deriving DecidableEq, Repr

/-- `r.WithContext(ctx)`. -/
def Request.WithContext (r : Request) (ctx : Context) : Request :=
  { r with ctx := ctx }

/-- The type assertion `v.(string)`: it panics with a run-time error unless `v`
holds a string. -/
def assertString : Any → Except Value String
  | some (.str s) => .ok s
  | _ => .error (.err "interface conversion: interface is not string")

/-! ## logger.go: the Record of the default sink -/

/-- `type LogRequest struct`. -/
structure LogRequest where
  Duration : Int
  Method : String
  Params : Any
  ContentLength : Int
  Path : String
  QueryString : String
  RemoteIP : String
  RouteName : String
  RequestID : String
  Status : Int
  UserAgent : String
  Dump : Any
  Error : Any
  deriving DecidableEq, Repr

/-- The zero value `LogRequest{}`. -/
def LogRequest.zero : LogRequest :=
  { Duration := 0, Method := "", Params := none, ContentLength := 0, Path := "",
    QueryString := "", RemoteIP := "", RouteName := "", RequestID := "", Status := 0,
    UserAgent := "", Dump := none, Error := none }

/-- `func (l *LogRequest) SetDuration(duration int64)`. -/
def LogRequest.SetDuration (l : LogRequest) (duration : Int) : LogRequest :=
  { l with Duration := duration }

/-- `func (l *LogRequest) SetRequestID(id string)`. -/
def LogRequest.SetRequestID (l : LogRequest) (id : String) : LogRequest :=
  { l with RequestID := id }

/-- `func (l *LogRequest) SetName(name string)`. -/
def LogRequest.SetName (l : LogRequest) (name : String) : LogRequest :=
  { l with RouteName := name }

/-- `func (l *LogRequest) SetParams(params interface{})`. -/
def LogRequest.SetParams (l : LogRequest) (params : Any) : LogRequest :=
  { l with Params := params }

/-- `func (l *LogRequest) SetError(err interface{})`. -/
def LogRequest.SetError (l : LogRequest) (err : Any) : LogRequest :=
  { l with Error := err }

/-- `func NewLog(r *http.Request, sw *statusWriter) (logMessage *LogRequest)`;
`sw = none` is the nil pointer. -/
def NewLog {σ : Type} (r : Request) (sw : Option (statusWriter σ)) : LogRequest :=
  let logMessage : LogRequest :=
    { LogRequest.zero with
      Method := r.Method, Path := r.Path, QueryString := r.RawQuery,
      RemoteIP := r.RemoteIP, UserAgent := r.UserAgent }
  let logMessage :=
    match sw with
    | some sw => { logMessage with Status := sw.status, ContentLength := sw.length }
    | none => logMessage
  let logMessage :=
    match r.Dump with
    | some dump => { logMessage with Dump := some (.bytes dump) }
    | none => logMessage
  { logMessage with Params := r.ctx.Value (.string "params") }

/-! ### ToJSON: `encoding/json` on the struct tags -/

/-- A JSON value as `json.Marshal` emits it for the values of the model. -/
inductive Json where
  | null
  | num (n : Int)
  | str (s : String)
  | base64 (b : Bytes)
  | emptyObject
  deriving DecidableEq, Repr

/-- A JSON object: its members in the order of emission. -/
abbrev JsonObject := List (String × Json)

/-- The value of a struct field, by the kind `encoding/json` sees. -/
inductive FieldValue where
  | int (n : Int)
  | string (s : String)
  | iface (v : Any)
  deriving DecidableEq, Repr

/-- A struct field: the text of its `json:"..."` tag and its value. -/
structure StructField where
  tag : String
  value : FieldValue
  deriving DecidableEq, Repr

/-- The fields of `LogRequest` in declaration order, each with its tag exactly as
the source spells it. -/
def LogRequest.jsonFields (l : LogRequest) : List StructField :=
  [ ⟨"duration", .int l.Duration⟩,
    ⟨"method", .string l.Method⟩,
    ⟨"params,omitempty", .iface l.Params⟩,
    ⟨"content_length", .int l.ContentLength⟩,
    ⟨"path", .string l.Path⟩,
    ⟨"query_string,omitempty", .string l.QueryString⟩,
    ⟨"remote_ip,omitempty", .string l.RemoteIP⟩,
    ⟨"route_name,omitempty", .string l.RouteName⟩,
    ⟨"request_id", .string l.RequestID⟩,
    ⟨"status,omitempty", .int l.Status⟩,
    ⟨"user_agent", .string l.UserAgent⟩,
    ⟨"dump,omitempty", .iface l.Dump⟩,
    ⟨"error,omitmepty", .iface l.Error⟩ ]

/-- `strings.Split(s, ",")` on the characters of `s`. -/
def splitComma : List Char → List (List Char)
  | [] => [[]]
  | c :: cs =>
    if c = Char.ofNat 44 then [] :: splitComma cs
    else
      match splitComma cs with
      | [] => [[c]]
      | h :: t => (c :: h) :: t

/-- The member name a tag gives: the text before the first comma. -/
def tagName (tag : String) : String :=
  String.mk ((splitComma tag.toList).headD [])

/-- The options of a tag: the comma-separated words after the name. -/
def tagOptions (tag : String) : List String :=
  (splitComma tag.toList).tail.map String.mk

/-- Whether the tag carries the option `omitempty`; `encoding/json` ignores
every option it does not know. -/
def omitEmpty (tag : String) : Bool :=
  (tagOptions tag).contains "omitempty"

/-- The `isEmptyValue` test of `encoding/json`: zero number, empty string, nil
interface. -/
def isEmptyValue : FieldValue → Bool
  | .int n => decide (n = 0)
  | .string s => decide (s = "")
  | .iface v => v.isNone

/-- Encoding of a dynamic value: a byte slice becomes a base64 string, an error
value that is a pointer to a struct without exported fields the empty object, a
run-time error of string kind the string of its text, and a channel is
refused. -/
def encodeValue : Value → Except String Json
  | .str s => .ok (.str s)
  | .int n => .ok (.num n)
  | .bytes b => .ok (.base64 b)
  | .err _ => .ok .emptyObject
  | .plainError msg => .ok (.str msg)
  | .chan _ => .error "json: unsupported type: chan int"

/-- Encoding of a field value. -/
def encodeField : FieldValue → Except String Json
  | .int n => .ok (.num n)
  | .string s => .ok (.str s)
  | .iface none => .ok .null
  | .iface (some v) => encodeValue v

/-- `json.Marshal` on a struct: the fields in order, a field with `omitempty`
skipped when its value is empty; the first encoding error fails the call. -/
def Marshal : List StructField → Except String JsonObject
  | [] => .ok []
  | f :: rest =>
    if omitEmpty f.tag && isEmptyValue f.value then Marshal rest
    else
      match encodeField f.value with
      | .error e => .error e
      | .ok j =>
        match Marshal rest with
        | .error e => .error e
        | .ok more => .ok ((tagName f.tag, j) :: more)

/-- `func (l *LogRequest) ToJSON() string`, as the object the returned text
denotes. -/
def LogRequest.ToJSON (l : LogRequest) : JsonObject :=
  match Marshal l.jsonFields with
  | .error err => [("error", .str err)]
  | .ok content => content

/-- The member names of a JSON object. -/
def JsonObject.keys (o : JsonObject) : List String :=
  o.map Prod.fst

/-! ## middleware.go: the capability interfaces

A method with a pointer receiver is a function from the Record before the call
to the Record after it. -/

/-- `type MiddlewareTimed interface { SetDuration(int64) }`. -/
abbrev MiddlewareTimed (L : Type) := L → Int → L

/-- `type MiddlewareRequestID interface { SetRequestID(string) }`. -/
abbrev MiddlewareRequestID (L : Type) := L → String → L

/-- `type MiddlewareParams interface { SetParams(interface{}) }`. -/
abbrev MiddlewareParams (L : Type) := L → Any → L

/-- `type MiddlewareNamed interface { SetName(name string) }`. -/
abbrev MiddlewareNamed (L : Type) := L → String → L

/-- `type MiddlewareChecker interface { Check(interface{}) bool }`; the pipeline
passes the Record itself as the argument. -/
abbrev MiddlewareChecker (L : Type) := L → Bool

/-- Modelled from the spec: the interface `MiddlewareError`, which `handler`
asserts on the Record and no source file declares.  The spec describes the
error-setter as the capability that "receives a panic payload when the inner
handler panics"; its one method has the signature of
`(*LogRequest).SetError(err interface{})`. -/
abbrev MiddlewareError (L : Type) := L → Any → L

/-- The dynamic type of the Records a sink builds: for each capability interface
the result of the type assertion `l.(Interface)`, `none` when it fails. -/
structure LogType (L : Type) where
  asTimed : Option (MiddlewareTimed L)
  asRequestID : Option (MiddlewareRequestID L)
  asNamed : Option (MiddlewareNamed L)
  asParams : Option (MiddlewareParams L)
  asError : Option (MiddlewareError L)
  asChecker : Option (MiddlewareChecker L)

/-- `type Middleware interface { Send(l Log) error; NewLog(r, sw) Log }`: the
factory together with the dynamic type of what it returns.  `Send` runs in a
goroutine of its own and appears in the model as an event. -/
structure Middleware (σ L : Type) where
  NewLog : Request → Option (statusWriter σ) → L
  logType : LogType L

/-- `*LogRequest` implements the five setters and not `MiddlewareChecker`. -/
def LogRequest.logType : LogType LogRequest where
  asTimed := some LogRequest.SetDuration
  asRequestID := some LogRequest.SetRequestID
  asNamed := some LogRequest.SetName
  asParams := some LogRequest.SetParams
  asError := some LogRequest.SetError
  asChecker := none

/-- `NewOutputConsole()`: the sink whose `NewLog` is the package function
`NewLog`. -/
def NewOutputConsole (σ : Type) : Middleware σ LogRequest where
  NewLog := fun r sw => NewLog r sw
  logType := LogRequest.logType

/-! ## logger.go: the pipeline -/

/-- What the pipeline does to its collaborators, in program order. -/
inductive Event (L : Type) where
  | UUIDNew
  | NewLog
  | SetDuration (duration : Int)
  | SetRequestID (id : String)
  | SetName (name : String)
  | SetParams (params : Any)
  | SetError (err : Any)
  | Check (l : L)
  | Send (l : L)
  | Println (v : Value)
  deriving DecidableEq, Repr

/-- The kind of an event: which collaborator call it is. -/
inductive EventKind where
  | UUIDNew
  | NewLog
  | SetDuration
  | SetRequestID
  | SetName
  | SetParams
  | SetError
  | Check
  | Send
  | Println
  deriving DecidableEq, Repr

/-- The kind of an event. -/
def Event.kind {L : Type} : Event L → EventKind
  | .UUIDNew => .UUIDNew
  | .NewLog => .NewLog
  | .SetDuration _ => .SetDuration
  | .SetRequestID _ => .SetRequestID
  | .SetName _ => .SetName
  | .SetParams _ => .SetParams
  | .SetError _ => .SetError
  | .Check _ => .Check
  | .Send _ => .Send
  | .Println _ => .Println

/-- The kinds of the events, in order. -/
def kinds {L : Type} (events : List (Event L)) : List EventKind :=
  events.map Event.kind

/-- The Records handed to `Send`, in order. -/
def sent {L : Type} : List (Event L) → List L
  | [] => []
  | .Send l :: rest => l :: sent rest
  | _ :: rest => sent rest

/-- A `uuid.UUID` of `github.com/google/uuid`: an array of 16 bytes, read here
through `getD` so that every list stands for one. -/
structure UUID where
  bytes : List UInt8
  deriving DecidableEq, Repr

/-- One lower-case hexadecimal digit. -/
def hexDigit (n : Nat) : Char :=
  "0123456789abcdef".toList.getD n (Char.ofNat 48)

/-- The two hexadecimal digits of the bytes `lo`, ..., `hi - 1` of a UUID. -/
def UUID.hex (u : UUID) (lo hi : Nat) : List Char :=
  (List.range (hi - lo)).flatMap (fun i =>
    let b := (u.bytes.getD (lo + i) 0).toNat
    [hexDigit (b / 16), hexDigit (b % 16)])

/-- `func (uuid UUID) String() string`: the form
`xxxxxxxx-xxxx-xxxx-xxxx-xxxxxxxxxxxx`. -/
def UUID.String (u : UUID) : String :=
  String.mk (u.hex 0 4 ++ [Char.ofNat 45] ++ u.hex 4 6 ++ [Char.ofNat 45] ++ u.hex 6 8 ++
    [Char.ofNat 45] ++ u.hex 8 10 ++ [Char.ofNat 45] ++ u.hex 10 16)

/-- What the outside world answers during one request: the value of `uuid.New()`
and the value of `time.Since(start).Milliseconds()` at the `prepareLog` call
after the inner handler and at the one in the deferred function. -/
structure Oracles where
  uuid : UUID
  elapsed : Int
  elapsedDeferred : Int
  deriving DecidableEq, Repr

/-- The outcome of a `prepareLog` call: the events up to its end, and the Record
or the panic that ends it. -/
structure Prepared (L : Type) where
  events : List (Event L)
  result : Except Value L

/-- The duration step of `prepareLog`. -/
def addDuration {L : Type} (Resources : Int) (t : LogType L) (ms : Int) (l : L) :
    Prepared L :=
  if enabled Resources ResourceDuration then
    match t.asTimed with
    | some SetDuration => ⟨[.SetDuration ms], .ok (SetDuration l ms)⟩
    | none => ⟨[], .ok l⟩
  else ⟨[], .ok l⟩

/-- The request-ID step of `prepareLog`, with its unchecked type assertion. -/
def addRequestID {L : Type} (Resources : Int) (t : LogType L) (r : Request) (l : L) :
    Prepared L :=
  if enabled Resources ResourceRequestID then
    match t.asRequestID with
    | some SetRequestID =>
      match assertString (r.ctx.Value ContextRequestID) with
      | .error e => ⟨[], .error e⟩
      | .ok id => ⟨[.SetRequestID id], .ok (SetRequestID l id)⟩
    | none => ⟨[], .ok l⟩
  else ⟨[], .ok l⟩

/-- The name step of `prepareLog`, with its unchecked type assertion. -/
def addName {L : Type} (Resources : Int) (t : LogType L) (r : Request) (l : L) :
    Prepared L :=
  if enabled Resources ResourceName then
    match t.asNamed with
    | some SetName =>
      match r.ctx.Value ContextRouteName with
      | none => ⟨[], .ok l⟩
      | some name =>
        match assertString (some name) with
        | .error e => ⟨[], .error e⟩
        | .ok s => ⟨[.SetName s], .ok (SetName l s)⟩
    | none => ⟨[], .ok l⟩
  else ⟨[], .ok l⟩

/-- The params step of `prepareLog`. -/
def addParams {L : Type} (Resources : Int) (t : LogType L) (r : Request) (l : L) :
    Prepared L :=
  if enabled Resources ResourceParams then
    match t.asParams with
    | some SetParams =>
      let params := r.ctx.Value ContextParams
      ⟨[.SetParams params], .ok (SetParams l params)⟩
    | none => ⟨[], .ok l⟩
  else ⟨[], .ok l⟩

/-- Sequencing of two steps: a panic ends the run, the events accumulate. -/
def Prepared.andThen {L : Type} (p : Prepared L) (next : L → Prepared L) : Prepared L :=
  match p.result with
  | .error e => ⟨p.events, .error e⟩
  | .ok l => ⟨p.events ++ (next l).events, (next l).result⟩

/-- `func prepareLog(r *http.Request, sw *statusWriter, start time.Time) Log`;
`ms` is the value of `time.Since(start).Milliseconds()`. -/
def prepareLog {σ L : Type} (Resources : Int) (defaultMiddleware : Middleware σ L)
    (r : Request) (sw : statusWriter σ) (ms : Int) : Prepared L :=
  let t := defaultMiddleware.logType
  let l : Prepared L := ⟨[.NewLog], .ok (defaultMiddleware.NewLog r (some sw))⟩
  (((l.andThen (addDuration Resources t ms)).andThen (addRequestID Resources t r)).andThen
    (addName Resources t r)).andThen (addParams Resources t r)

/-- What an inner handler does with the recorder: it ends by returning or by
panicking, and before that it calls `WriteHeader` and `Write`, free to choose
each next step from the results of the writes so far. -/
inductive HandlerProg where
  | ret
  | panic (v : Value)
  | WriteHeader (code : Int) (next : HandlerProg)
  | Write (b : Bytes) (next : Int → Option String → HandlerProg)

/-- Run an inner handler against the recorder: the recorder afterwards, and the
value `recover()` would yield (`none` when the handler returned). -/
def HandlerProg.run {σ : Type} (W : WriterImpl σ) :
    HandlerProg → statusWriter σ → statusWriter σ × Option Value
  | .ret, sw => (sw, none)
  | .panic v, sw => (sw, some v)
  | .WriteHeader code next, sw => next.run W (sw.WriteHeader W code)
  | .Write b next, sw =>
    let r := sw.Write W b
    (next r.2.1 r.2.2).run W r.1

/-- `http.StatusInternalServerError`. -/
def StatusInternalServerError : Int := 500

/-- The bytes of `"There was an internal server error"`. -/
def errorBody : Bytes :=
  "There was an internal server error".toList.map (fun c => UInt8.ofNat c.toNat)

/-- What one run of the wrapped handler leaves behind. -/
structure Served (σ L : Type) where
  seen : Request
  sw : statusWriter σ
  events : List (Event L)
  panic : Option Value

/-- The values the exported package variable `Resources` holds at the three
points where one run of the wrapped handler reads it: at entry (the request-ID
test of `handler`), in the `prepareLog` call that follows the inner handler, and
in the `prepareLog` call of the deferred function.  The variable is mutable, and
the code that runs in between (the inner handler first of all) may assign it. -/
structure Flags where
  atEntry : Int
  afterInner : Int
  deferred : Int
  deriving DecidableEq, Repr

/-- A request during which `Resources` keeps the value `R`. -/
def Flags.const (R : Int) : Flags :=
  { atEntry := R, afterInner := R, deferred := R }

/-- The body of the deferred function of `handler` once `recover()` has returned
the non-nil `err`; `Resources` is the value the variable holds then, `before`
lists the events that precede it. -/
def recovered {σ L : Type} (Resources : Int) (defaultMiddleware : Middleware σ L)
    (W : WriterImpl σ) (o : Oracles) (r : Request) (sw : statusWriter σ) (err : Value)
    (before : List (Event L)) : Served σ L :=
  let sw1 := sw.WriteHeader W StatusInternalServerError
  let sw2 := (sw1.Write W errorBody).1
  let p := prepareLog Resources defaultMiddleware r sw2 o.elapsedDeferred
  match p.result with
  | .error e => ⟨r, sw2, before ++ [.Println err] ++ p.events, some e⟩
  | .ok l =>
    match defaultMiddleware.logType.asError with
    | some SetError =>
      ⟨r, sw2, before ++ [.Println err] ++ p.events ++
        [.SetError (some err), .Send (SetError l (some err))], none⟩
    | none => ⟨r, sw2, before ++ [.Println err] ++ p.events ++ [.Send l], none⟩

/-- The first statement block of `handler`: with the request-ID bit set, the
request with `uuid.New().String()` stored under `ContextRequestID`; otherwise
the request itself. -/
def attachRequestID (Resources : Int) (o : Oracles) (r : Request) : Request :=
  if enabled Resources ResourceRequestID then
    let id := o.uuid.String
    let ctx := r.ctx.WithValue ContextRequestID (some (.str id))
    r.WithContext ctx
  else r

/-- `func handler(inner http.Handler) func(w http.ResponseWriter, r *http.Request)`,
applied to `w` and `r`.  `Resources` gives the values the package variable
`Resources` holds at each of its reads; `defaultMiddleware` is the value of the
package variable `defaultMiddleware` once the inner handler has ended, which is
when the pipeline reads it. -/
def handler {σ L : Type} (Resources : Flags) (defaultMiddleware : Middleware σ L)
    (W : WriterImpl σ) (o : Oracles) (inner : Request → HandlerProg) (w : σ)
    (r : Request) : Served σ L :=
  let sw := statusWriter.fresh w
  let r1 := attachRequestID Resources.atEntry o r
  let ev : List (Event L) :=
    if enabled Resources.atEntry ResourceRequestID then [.UUIDNew] else []
  let ran := (inner r1).run W sw
  match ran.2 with
  | some err => recovered Resources.deferred defaultMiddleware W o r1 ran.1 err ev
  | none =>
    let p := prepareLog Resources.afterInner defaultMiddleware r1 ran.1 o.elapsed
    match p.result with
    | .error err =>
      recovered Resources.deferred defaultMiddleware W o r1 ran.1 err (ev ++ p.events)
    | .ok l =>
      match defaultMiddleware.logType.asChecker with
      | some Check =>
        if Check l then ⟨r1, ran.1, ev ++ p.events ++ [.Check l, .Send l], none⟩
        else ⟨r1, ran.1, ev ++ p.events ++ [.Check l], none⟩
      | none => ⟨r1, ran.1, ev ++ p.events ++ [.Send l], none⟩

/-- `func With(inner http.HandlerFunc) http.HandlerFunc`. -/
def With {σ L : Type} (Resources : Flags) (defaultMiddleware : Middleware σ L)
    (W : WriterImpl σ) (o : Oracles) (inner : Request → HandlerProg) (w : σ)
    (r : Request) : Served σ L :=
  handler Resources defaultMiddleware W o inner w r

/-- `func Inject(inner http.Handler) http.Handler`. -/
def Inject {σ L : Type} (Resources : Flags) (defaultMiddleware : Middleware σ L)
    (W : WriterImpl σ) (o : Oracles) (inner : Request → HandlerProg) (w : σ)
    (r : Request) : Served σ L :=
  handler Resources defaultMiddleware W o inner w r

/-- `func WithNamed(name string, fn http.HandlerFunc) http.HandlerFunc`. -/
def WithNamed {σ L : Type} (Resources : Flags) (defaultMiddleware : Middleware σ L)
    (W : WriterImpl σ) (o : Oracles) (name : String) (fn : Request → HandlerProg) (w : σ)
    (r : Request) : Served σ L :=
  let ctx := r.ctx.WithValue ContextRouteName (some (.str name))
  let r := r.WithContext ctx
  With Resources defaultMiddleware W o fn w (r.WithContext ctx)

/-- Whether the context holds nothing or a string under `ContextRouteName`. -/
def routeNameIsString (ctx : Context) : Bool :=
  match ctx.Value ContextRouteName with
  | none => true
  | some (.str _) => true
  | some _ => false

/-- Whether the name step of `prepareLog` reaches a failing type assertion: the
name bit is set, the Record implements `MiddlewareNamed`, and the context holds
a value that is not a string under `ContextRouteName`. -/
def nameAssertionFails {L : Type} (Resources : Int) (t : LogType L) (ctx : Context) : Bool :=
  enabled Resources ResourceName && t.asNamed.isSome && !routeNameIsString ctx

/-- Whether the context holds a string under `ContextRequestID`. -/
def requestIDIsString (ctx : Context) : Bool :=
  match ctx.Value ContextRequestID with
  | some (.str _) => true
  | _ => false

/-- Whether the request-ID step of `prepareLog` reaches a failing type
assertion: the request-ID bit is set, the Record implements
`MiddlewareRequestID`, and the context holds no string under
`ContextRequestID`. -/
def idAssertionFails {L : Type} (Resources : Int) (t : LogType L) (ctx : Context) : Bool :=
  enabled Resources ResourceRequestID && t.asRequestID.isSome && !requestIDIsString ctx

/-- A setter is called only with its own bit set and its capability present, the
name setter only with a route name in the context as well. -/
def gated {L : Type} (R : Int) (t : LogType L) (r : Request) (e : Event L) : Prop :=
  (e.kind = .SetDuration → enabled R ResourceDuration = true ∧ t.asTimed.isSome = true) ∧
  (e.kind = .SetRequestID →
    enabled R ResourceRequestID = true ∧ t.asRequestID.isSome = true) ∧
  (e.kind = .SetName → enabled R ResourceName = true ∧ t.asNamed.isSome = true ∧
    r.ctx.Value ContextRouteName ≠ none) ∧
  (e.kind = .SetParams → enabled R ResourceParams = true ∧ t.asParams.isSome = true)

/-! ## Sample inputs -/

/-- A request `GET /x?a=1` with an empty context. -/
def sampleRequest : Request :=
  { Method := "GET", Path := "/x", RawQuery := "a=1", UserAgent := "curl",
    RemoteIP := "10.0.0.1", Dump := none, ctx := [] }

/-- The same request after `context.WithValue(ctx, ContextRouteName, 7)`: the
value under the route-name key is an `int`. -/
def intNamedRequest : Request :=
  sampleRequest.WithContext (sampleRequest.ctx.WithValue ContextRouteName (some (.int 7)))

/-- The same request after `WithNamed("home", ...)` and with params in the
context. -/
def namedRequest : Request :=
  sampleRequest.WithContext
    ((sampleRequest.ctx.WithValue ContextRouteName (some (.str "home"))).WithValue
      ContextParams (some (.str "id=1")))

/-- Oracle answers: the UUID of 16 bytes 1, 2, ..., 16, and 12 ms and 13 ms of
elapsed time. -/
def sampleOracles : Oracles :=
  { uuid := ⟨[1, 2, 3, 4, 5, 6, 7, 8, 9, 10, 11, 12, 13, 14, 15, 16]⟩, elapsed := 12,
    elapsedDeferred := 13 }

/-- An inner handler that writes three bytes and panics with `"boom"`. -/
def panickingInner : Request → HandlerProg :=
  fun _ => .Write [1, 2, 3] (fun _ _ => .panic (.str "boom"))

/-- An inner handler that writes a 404 header and three bytes, and returns. -/
def returningInner : Request → HandlerProg :=
  fun _ => .WriteHeader 404 (.Write [1, 2, 3] (fun _ _ => .ret))

/-- A sink whose Records are numbers and implement only the send-checker, which
accepts those from 500 on; its factory builds the recorded status. -/
def checkingSink : Middleware Unit Int where
  NewLog := fun _ sw => (sw.map (fun s => s.status)).getD 0
  logType :=
    { asTimed := none, asRequestID := none, asNamed := none, asParams := none,
      asError := none, asChecker := some (fun l => decide (500 ≤ l)) }

/-! ## The response recorder: status and length -/

theorem applyCalls_append {σ : Type} (W : WriterImpl σ) (a b : List Call) (w : statusWriter σ) :
    (applyCalls W (a ++ b) w).1 = (applyCalls W b (applyCalls W a w).1).1 := by
  induction a generalizing w with
  | nil => rfl
  | cons c rest ih =>
    cases c with
    | WriteHeader code => simpa [applyCalls] using ih _
    | Write bs => simpa [applyCalls] using ih _

theorem status_WriteHeader {σ : Type} (W : WriterImpl σ) (w : statusWriter σ) (code : Int) :
    (w.WriteHeader W code).status = code := rfl

theorem status_Write {σ : Type} (W : WriterImpl σ) (w : statusWriter σ) (b : Bytes) :
    (w.Write W b).1.status = if w.status = 0 then 200 else w.status := by
  unfold statusWriter.Write
  by_cases h : w.status = 0 <;> simp [h]

/-- After calls that contain no `WriteHeader`, a status that was set stays, and
an unset status becomes 200 exactly when a `Write` was made. -/
theorem status_of_writes {σ : Type} (W : WriterImpl σ) (calls : List Call)
    (w : statusWriter σ) (h : calls.any Call.isWriteHeader = false) :
    (applyCalls W calls w).1.status =
      if w.status ≠ 0 then w.status else if calls.any Call.isWrite then 200 else 0 := by
  induction calls generalizing w with
  | nil =>
    by_cases hs : w.status = 0 <;> simp [applyCalls, hs]
  | cons c rest ih =>
    cases c with
    | WriteHeader code => simp [Call.isWriteHeader] at h
    | Write bs =>
      have hr : rest.any Call.isWriteHeader = false := by
        simpa [Call.isWriteHeader] using h
      simp only [applyCalls]
      rw [ih _ hr, status_Write]
      by_cases hs : w.status = 0 <;> simp [hs, Call.isWrite]

/-- C1 (as amended): on a fresh recorder, without any `WriteHeader` call the
status is 0 until the first `Write` and 200 afterwards; otherwise it is the
code of the most recent `WriteHeader` call when that code is not 0, and when
that code is 0 it is 0 until the next `Write` and 200 afterwards. -/
theorem statusWriter_status {σ : Type} (W : WriterImpl σ) (w : σ) (calls : List Call) :
    (calls.any Call.isWriteHeader = false →
      (applyCalls W calls (statusWriter.fresh w)).1.status =
        if calls.any Call.isWrite then 200 else 0) ∧
    (∀ (before : List Call) (code : Int) (after : List Call),
      calls = before ++ Call.WriteHeader code :: after →
      after.any Call.isWriteHeader = false →
      (applyCalls W calls (statusWriter.fresh w)).1.status =
        if code ≠ 0 then code else if after.any Call.isWrite then 200 else 0) := by
  refine ⟨fun h => ?_, fun before code after hc ha => ?_⟩
  · rw [status_of_writes W calls _ h]
    simp [statusWriter.fresh]
  · subst hc
    rw [applyCalls_append]
    simp only [applyCalls]
    rw [status_of_writes W after _ ha, status_WriteHeader]

/-- The amended C1 at the calls `WriteHeader(404)`, `Write`, `WriteHeader(0)`,
`Write`: the last code is 0 and a `Write` follows, so the status is 200. -/
theorem statusWriter_status_witness :
    (applyCalls acceptAll
      [.WriteHeader 404, .Write [1], .WriteHeader 0, .Write [2]]
      (statusWriter.fresh ())).1.status = 200 :=
  (statusWriter_status acceptAll ()
    [.WriteHeader 404, .Write [1], .WriteHeader 0, .Write [2]]).2
    [.WriteHeader 404, .Write [1]] 0 [.Write [2]] (by decide) (by decide)

/-- C1 as stated fails: after `WriteHeader(0)` and one `Write`, the most recent
`WriteHeader` call passed 0 and the recorded status is 200. -/
theorem statusWriter_status_counterexample :
    ([Call.WriteHeader 0, .Write [65]] = [] ++ Call.WriteHeader 0 :: [.Write [65]]) ∧
    (applyCalls acceptAll [.WriteHeader 0, .Write [65]] (statusWriter.fresh ())).1.status = 200 ∧
    (applyCalls acceptAll [.WriteHeader 0, .Write [65]] (statusWriter.fresh ())).1.status ≠ 0 := by
  decide

theorem wrapInt_add_wrapInt (a n : Int) : wrapInt (wrapInt a + n) = wrapInt (a + n) := by
  unfold wrapInt
  omega

theorem wrapInt_of_range (x : Int) (lo : -9223372036854775808 ≤ x)
    (hi : x < 9223372036854775808) : wrapInt x = x := by
  unfold wrapInt
  omega

theorem wrapInt_wrapInt (a : Int) : wrapInt (wrapInt a) = wrapInt a := by
  unfold wrapInt
  omega

/-- The recorder forwards every call unchanged: the wrapped writer ends in the
state in which the same calls made on it directly leave it, and each `Write` of
the recorder returns the byte count of the wrapped `Write`. -/
theorem forward_applyCalls {σ : Type} (W : WriterImpl σ) (calls : List Call)
    (w : statusWriter σ) :
    (applyCalls W calls w).1.ResponseWriter = (forwardCalls W calls w.ResponseWriter).1 ∧
    (applyCalls W calls w).2 = (forwardCalls W calls w.ResponseWriter).2 := by
  induction calls generalizing w with
  | nil => exact ⟨rfl, rfl⟩
  | cons c rest ih =>
    cases c with
    | WriteHeader code =>
      simp only [applyCalls, forwardCalls]
      exact ih _
    | Write bs =>
      simp only [applyCalls, forwardCalls]
      have h := ih (w.Write W bs).1
      have hw : (w.Write W bs).1.ResponseWriter = (W.Write w.ResponseWriter bs).1 := by
        unfold statusWriter.Write
        split <;> rfl
      have hn : (w.Write W bs).2.1 = (W.Write w.ResponseWriter bs).2.1 := by
        unfold statusWriter.Write
        split <;> rfl
      rw [hw] at h
      exact ⟨h.1, by rw [h.2, hn]⟩

theorem length_applyCalls {σ : Type} (W : WriterImpl σ) (calls : List Call)
    (w : statusWriter σ) (hw : wrapInt w.length = w.length) :
    (applyCalls W calls w).1.length =
      wrapInt (w.length + (forwardCalls W calls w.ResponseWriter).2.sum) := by
  induction calls generalizing w with
  | nil => simp [applyCalls, forwardCalls, hw]
  | cons c rest ih =>
    cases c with
    | WriteHeader code =>
      simp only [applyCalls, forwardCalls]
      exact ih _ hw
    | Write bs =>
      simp only [applyCalls, forwardCalls, List.sum_cons]
      have hl : (w.Write W bs).1.length = wrapInt (w.length + (W.Write w.ResponseWriter bs).2.1) := by
        unfold statusWriter.Write
        split <;> rfl
      have hr : (w.Write W bs).1.ResponseWriter = (W.Write w.ResponseWriter bs).1 := by
        unfold statusWriter.Write
        split <;> rfl
      rw [ih _ (by rw [hl, wrapInt_wrapInt]), hl, hr, wrapInt_add_wrapInt, add_assoc]

theorem counts_forwardCalls {σ : Type} (W : WriterImpl σ)
    (full : ∀ (s : σ) (b : Bytes), (W.Write s b).2.1 = b.length) (calls : List Call)
    (s : σ) : (forwardCalls W calls s).2.sum = (calls.map Call.size).sum := by
  induction calls generalizing s with
  | nil => simp [forwardCalls]
  | cons c rest ih =>
    cases c with
    | WriteHeader code =>
      simp only [forwardCalls, List.map_cons, List.sum_cons, Call.size, zero_add]
      exact ih _
    | Write bs =>
      simp only [forwardCalls, List.map_cons, List.sum_cons, Call.size]
      rw [ih, full]

theorem size_sum_nonneg (calls : List Call) : 0 ≤ (calls.map Call.size).sum := by
  induction calls with
  | nil => simp
  | cons c rest ih =>
    cases c <;> simp only [List.map_cons, List.sum_cons, Call.size] <;> omega

/-- C2 (as amended): on a fresh recorder the length is the sum of the byte counts
the wrapped writer returned, reduced to the range of Go's 64-bit `int`, hence
that sum itself whenever it lies within the range; the recorder forwards every
call unchanged; when the wrapped writer accepts every slice in full the length
is the sum of the lengths of the slices passed to `Write` as long as that sum is
below 2^63, whatever the number of `Write` calls and the `WriteHeader` calls in
between; three writes of 10, 20 and 5 bytes give 35. -/
theorem statusWriter_length {σ : Type} (W : WriterImpl σ) (w : σ) (calls : List Call) :
    (applyCalls W calls (statusWriter.fresh w)).1.length =
      wrapInt (forwardCalls W calls w).2.sum ∧
    (applyCalls W calls (statusWriter.fresh w)).2 = (forwardCalls W calls w).2 ∧
    (applyCalls W calls (statusWriter.fresh w)).1.ResponseWriter = (forwardCalls W calls w).1 ∧
    (-9223372036854775808 ≤ (forwardCalls W calls w).2.sum →
      (forwardCalls W calls w).2.sum < 9223372036854775808 →
      (applyCalls W calls (statusWriter.fresh w)).1.length = (forwardCalls W calls w).2.sum) ∧
    ((∀ (s : σ) (b : Bytes), (W.Write s b).2.1 = b.length) →
      (applyCalls W calls (statusWriter.fresh w)).1.length =
        wrapInt (calls.map Call.size).sum ∧
      ((calls.map Call.size).sum < 9223372036854775808 →
        (applyCalls W calls (statusWriter.fresh w)).1.length = (calls.map Call.size).sum) ∧
      (∀ b1 b2 b3 : Bytes, b1.length = 10 → b2.length = 20 → b3.length = 5 →
        (applyCalls W [.Write b1, .Write b2, .Write b3] (statusWriter.fresh w)).1.length = 35)) := by
  have h0 : ∀ cs : List Call, (applyCalls W cs (statusWriter.fresh w)).1.length =
      wrapInt (forwardCalls W cs w).2.sum := by
    intro cs
    rw [length_applyCalls W cs _ (by show wrapInt 0 = 0; decide)]
    simp [statusWriter.fresh]
  have hf := forward_applyCalls W calls (statusWriter.fresh w)
  refine ⟨h0 calls, hf.2, hf.1, ?_, fun full => ⟨?_, ?_, ?_⟩⟩
  · intro lo hi
    rw [h0, wrapInt_of_range _ lo hi]
  · rw [h0, counts_forwardCalls W full]
  · intro hi
    rw [h0, counts_forwardCalls W full]
    exact wrapInt_of_range _ (by have := size_sum_nonneg calls; omega) hi
  · intro b1 b2 b3 h1 h2 h3
    rw [h0, counts_forwardCalls W full]
    simp [Call.size, h1, h2, h3]
    decide

/-- The amended C2 at a writer that accepts every slice in full, with a
`WriteHeader` between two writes of 2 and 3 bytes: the length is 5. -/
theorem statusWriter_length_witness :
    (applyCalls acceptAll [.Write [1, 2], .WriteHeader 404, .Write [3, 4, 5]]
      (statusWriter.fresh ())).1.length = 5 :=
  ((statusWriter_length acceptAll ()
    [.Write [1, 2], .WriteHeader 404, .Write [3, 4, 5]]).2.2.2.2 (fun _ _ => rfl)).2.1
    (by decide)

theorem size_sum_replicate (n : Nat) :
    ((List.replicate n (Call.Write [1])).map Call.size).sum = (n : Int) := by
  simp [Call.size]

theorem length_replicate (n : Nat) :
    (applyCalls acceptAll (List.replicate n (Call.Write [1]))
      (statusWriter.fresh ())).1.length = wrapInt n := by
  rw [length_applyCalls acceptAll _ _ (by decide),
    counts_forwardCalls acceptAll (fun _ _ => rfl), size_sum_replicate]
  simp [statusWriter.fresh]

/-- C2 as stated fails: when the wrapped writer reports `math.MaxInt64` bytes for
each of two writes, the byte counts it returned sum to 2^64 - 2 and the recorded
length is -2; and after 2^63 writes of one byte to a writer that accepts every
slice in full, the lengths of the slices sum to 2^63 and the recorded length is
-2^63. -/
theorem statusWriter_length_counterexample :
    ((forwardCalls maxCountWriter [.Write [1], .Write [2]] ()).2.sum =
        18446744073709551614 ∧
      (applyCalls maxCountWriter [.Write [1], .Write [2]] (statusWriter.fresh ())).1.length =
        -2) ∧
    (((List.replicate 9223372036854775808 (Call.Write [1])).map Call.size).sum =
        9223372036854775808 ∧
      (applyCalls acceptAll (List.replicate 9223372036854775808 (Call.Write [1]))
        (statusWriter.fresh ())).1.length = -9223372036854775808) :=
  ⟨by decide, size_sum_replicate 9223372036854775808,
    (length_replicate 9223372036854775808).trans (by decide)⟩

/-! ## The sink registry -/

theorem entry_assign {V : Type} (kvs : List (String × V)) (k : String) (v : V) :
    GoMap.entry (some ((k, v) :: kvs.filter (fun kv => !(kv.1 == k)))) k = some v := by
  simp [GoMap.entry, List.find?]

/-- On an allocated map, two registrations under one name followed by `Use` of
that name run to the end, and `Default` then returns the second sink. -/
theorem register_twice_allocated {M : Type} (kvs : List (String × Option M))
    (active : Option M) (name : String) (s1 s2 : M) :
    ∃ g : Registry M,
      runCalls [.RegisterMiddleware name (some s1), .RegisterMiddleware name (some s2),
        .Use name] { middlewares := some kvs, defaultMiddleware := active } = .ok g ∧
      Default g = some s2 := by
  refine ⟨_, rfl, ?_⟩
  simp [Default, Use, GoMap.index, entry_assign]

/-- C3, the code at the claim's input: in the state in which the package starts,
the first `RegisterMiddleware` call of the sequence panics with the run-time
error of an assignment to an entry of a nil map, whatever the name and the two
sinks, so the sequence never reaches `Use` and `Default`. -/
theorem RegisterMiddleware_initial_panics {M : Type} (console : M) (name : String)
    (s1 s2 : M) :
    RegisterMiddleware name (some s1) (Registry.initial console) =
      .error (.plainError "assignment to entry in nil map") ∧
    runCalls [.RegisterMiddleware name (some s1), .RegisterMiddleware name (some s2),
      .Use name] (Registry.initial console) =
      .error (.plainError "assignment to entry in nil map") :=
  ⟨rfl, rfl⟩

/-- C4: for every registry state (the nil map of the initial state included),
every active sink and every name without an entry in the registry, `Use(name)`
runs to its end and leaves both package variables as they were, so `Default`
returns the same sink as before. -/
theorem Use_unregistered {M : Type} (g : Registry M) (name : String)
    (h : g.middlewares.entry name = none) :
    (RegistryCall.Use name).run g = .ok (Use name g) ∧
    Use name g = g ∧
    Default (Use name g) = Default g := by
  have hu : Use name g = g := by
    simp [Use, GoMap.index, h]
  exact ⟨rfl, hu, by rw [hu]⟩

/-- C4 in the initial state, where the map is nil: `Use("cloudwatch")` keeps the
console sink active. -/
theorem Use_unregistered_witness :
    Default (Use "cloudwatch" (Registry.initial "console")) =
      Default (Registry.initial "console") :=
  (Use_unregistered (Registry.initial "console") "cloudwatch" rfl).2.2

/-! ## The pipeline: enrichment -/

theorem sent_append {L : Type} (a b : List (Event L)) : sent (a ++ b) = sent a ++ sent b := by
  induction a with
  | nil => rfl
  | cons e rest ih => cases e <;> simp [sent, ih]

theorem sent_eq_nil {L : Type} (es : List (Event L)) (h : EventKind.Send ∉ kinds es) :
    sent es = [] := by
  induction es with
  | nil => rfl
  | cons e rest ih =>
    have hr : EventKind.Send ∉ kinds rest := by
      intro hx
      exact h (by simp only [kinds, List.map_cons]; exact List.mem_cons_of_mem _ hx)
    cases e <;> simp_all [sent, kinds, Event.kind]

theorem andThen_result {L : Type} (p : Prepared L) (f : L → Prepared L) :
    (p.andThen f).result =
      match p.result with
      | .error e => .error e
      | .ok l => (f l).result := by
  unfold Prepared.andThen
  cases p.result <;> rfl

theorem andThen_events_ok {L : Type} (p : Prepared L) (f : L → Prepared L) (l : L)
    (h : p.result = .ok l) : (p.andThen f).events = p.events ++ (f l).events := by
  unfold Prepared.andThen
  rw [h]

theorem andThen_events_error {L : Type} (p : Prepared L) (f : L → Prepared L) (e : Value)
    (h : p.result = .error e) : (p.andThen f).events = p.events := by
  unfold Prepared.andThen
  rw [h]

theorem andThen_ok_split {L : Type} (p : Prepared L) (f : L → Prepared L) (l2 : L)
    (h : (p.andThen f).result = .ok l2) :
    ∃ l1, p.result = .ok l1 ∧ (f l1).result = .ok l2 ∧
      (p.andThen f).events = p.events ++ (f l1).events := by
  rw [andThen_result] at h
  cases hp : p.result with
  | error e => rw [hp] at h; cases h
  | ok l1 =>
    rw [hp] at h
    exact ⟨l1, rfl, h, andThen_events_ok p f l1 hp⟩

theorem andThen_sublist {L : Type} (p : Prepared L) (f : L → Prepared L)
    (A B : List EventKind) (hp : (kinds p.events).Sublist A)
    (hf : ∀ l, (kinds (f l).events).Sublist B) :
    (kinds (p.andThen f).events).Sublist (A ++ B) := by
  cases h : p.result with
  | error e =>
    rw [andThen_events_error p f e h]
    exact hp.trans (List.sublist_append_left A B)
  | ok l =>
    rw [andThen_events_ok p f l h]
    simp only [kinds, List.map_append]
    exact List.Sublist.append hp (hf l)

theorem andThen_forall {L : Type} (q : Event L → Prop) (p : Prepared L) (f : L → Prepared L)
    (hp : ∀ e ∈ p.events, q e) (hf : ∀ l, ∀ e ∈ (f l).events, q e) :
    ∀ e ∈ (p.andThen f).events, q e := by
  intro e he
  cases h : p.result with
  | error x =>
    rw [andThen_events_error p f x h] at he
    exact hp e he
  | ok l =>
    rw [andThen_events_ok p f l h] at he
    rcases List.mem_append.mp he with h1 | h1
    · exact hp e h1
    · exact hf l e h1

/-! ### The four steps -/

theorem addDuration_eq {L : Type} (R : Int) (t : LogType L) (ms : Int) (l : L) :
    addDuration R t ms l =
      match enabled R ResourceDuration, t.asTimed with
      | true, some f => ⟨[.SetDuration ms], .ok (f l ms)⟩
      | _, _ => ⟨[], .ok l⟩ := by
  unfold addDuration
  cases enabled R ResourceDuration <;> cases t.asTimed <;> rfl

theorem addParams_eq {L : Type} (R : Int) (t : LogType L) (r : Request) (l : L) :
    addParams R t r l =
      match enabled R ResourceParams, t.asParams with
      | true, some f =>
        ⟨[.SetParams (r.ctx.Value ContextParams)], .ok (f l (r.ctx.Value ContextParams))⟩
      | _, _ => ⟨[], .ok l⟩ := by
  unfold addParams
  cases enabled R ResourceParams <;> cases t.asParams <;> rfl

theorem addRequestID_eq {L : Type} (R : Int) (t : LogType L) (r : Request) (l : L) :
    addRequestID R t r l =
      match enabled R ResourceRequestID, t.asRequestID with
      | true, some f =>
        match assertString (r.ctx.Value ContextRequestID) with
        | .error e => ⟨[], .error e⟩
        | .ok id => ⟨[.SetRequestID id], .ok (f l id)⟩
      | _, _ => ⟨[], .ok l⟩ := by
  unfold addRequestID
  cases enabled R ResourceRequestID <;> cases t.asRequestID <;> rfl

theorem addName_eq {L : Type} (R : Int) (t : LogType L) (r : Request) (l : L) :
    addName R t r l =
      match enabled R ResourceName, t.asNamed, r.ctx.Value ContextRouteName with
      | true, some f, some (.str s) => ⟨[.SetName s], .ok (f l s)⟩
      | true, some _, some _ => ⟨[], .error (.err "interface conversion: interface is not string")⟩
      | _, _, _ => ⟨[], .ok l⟩ := by
  unfold addName
  cases enabled R ResourceName <;> cases t.asNamed <;> cases h : r.ctx.Value ContextRouteName
    <;> try rfl
  rename_i f v
  cases v <;> rfl

theorem addDuration_kinds {L : Type} (R : Int) (t : LogType L) (ms : Int) (l : L) :
    (kinds (addDuration R t ms l).events).Sublist [.SetDuration] := by
  rw [addDuration_eq]
  cases enabled R ResourceDuration <;> cases t.asTimed <;> simp [kinds, Event.kind]

theorem addRequestID_kinds {L : Type} (R : Int) (t : LogType L) (r : Request) (l : L) :
    (kinds (addRequestID R t r l).events).Sublist [.SetRequestID] := by
  rw [addRequestID_eq]
  cases enabled R ResourceRequestID <;> cases t.asRequestID <;>
    cases assertString (r.ctx.Value ContextRequestID) <;> simp [kinds, Event.kind]

theorem addName_kinds {L : Type} (R : Int) (t : LogType L) (r : Request) (l : L) :
    (kinds (addName R t r l).events).Sublist [.SetName] := by
  rw [addName_eq]
  cases enabled R ResourceName <;> cases t.asNamed <;> cases r.ctx.Value ContextRouteName <;>
    try simp [kinds, Event.kind]
  rename_i f v
  cases v <;> simp [kinds, Event.kind]

theorem addParams_kinds {L : Type} (R : Int) (t : LogType L) (r : Request) (l : L) :
    (kinds (addParams R t r l).events).Sublist [.SetParams] := by
  rw [addParams_eq]
  cases enabled R ResourceParams <;> cases t.asParams <;> simp [kinds, Event.kind]

/-- The events of `prepareLog` are, in this order and each at most once, the
factory call and the calls of the four setters. -/
theorem prepareLog_kinds {σ L : Type} (R : Int) (m : Middleware σ L) (r : Request)
    (sw : statusWriter σ) (ms : Int) :
    (kinds (prepareLog R m r sw ms).events).Sublist
      [.NewLog, .SetDuration, .SetRequestID, .SetName, .SetParams] := by
  unfold prepareLog
  have h0 : (kinds (⟨[.NewLog], .ok (m.NewLog r (some sw))⟩ : Prepared L).events).Sublist
      [.NewLog] := by simp [kinds, Event.kind]
  have h1 := andThen_sublist _ (addDuration R m.logType ms) _ _ h0 (addDuration_kinds R _ ms)
  have h2 := andThen_sublist _ (addRequestID R m.logType r) _ _ h1 (addRequestID_kinds R _ r)
  have h3 := andThen_sublist _ (addName R m.logType r) _ _ h2 (addName_kinds R _ r)
  exact andThen_sublist _ (addParams R m.logType r) _ _ h3 (addParams_kinds R _ r)

theorem addDuration_gated {L : Type} (R : Int) (t : LogType L) (r : Request) (ms : Int)
    (l : L) : ∀ e ∈ (addDuration R t ms l).events, gated R t r e := by
  rw [addDuration_eq]
  cases h1 : enabled R ResourceDuration <;> cases h2 : t.asTimed <;>
    simp [gated, Event.kind, h1, h2]

theorem addRequestID_gated {L : Type} (R : Int) (t : LogType L) (r : Request) (l : L) :
    ∀ e ∈ (addRequestID R t r l).events, gated R t r e := by
  rw [addRequestID_eq]
  cases h1 : enabled R ResourceRequestID <;> cases h2 : t.asRequestID <;>
    cases assertString (r.ctx.Value ContextRequestID) <;>
    simp [gated, Event.kind, h1, h2]

theorem addName_gated {L : Type} (R : Int) (t : LogType L) (r : Request) (l : L) :
    ∀ e ∈ (addName R t r l).events, gated R t r e := by
  rw [addName_eq]
  cases h1 : enabled R ResourceName <;> cases h2 : t.asNamed <;>
    cases h3 : r.ctx.Value ContextRouteName <;> try simp [gated, Event.kind, h1, h2, h3]
  rename_i f v
  cases v <;> simp [gated, Event.kind, h1, h2, h3]

theorem addParams_gated {L : Type} (R : Int) (t : LogType L) (r : Request) (l : L) :
    ∀ e ∈ (addParams R t r l).events, gated R t r e := by
  rw [addParams_eq]
  cases h1 : enabled R ResourceParams <;> cases h2 : t.asParams <;>
    simp [gated, Event.kind, h1, h2]

theorem prepareLog_gated {σ L : Type} (R : Int) (m : Middleware σ L) (r : Request)
    (sw : statusWriter σ) (ms : Int) :
    ∀ e ∈ (prepareLog R m r sw ms).events, gated R m.logType r e := by
  unfold prepareLog
  have h0 : ∀ e ∈ (⟨[.NewLog], .ok (m.NewLog r (some sw))⟩ : Prepared L).events,
      gated R m.logType r e := by simp [gated, Event.kind]
  have h1 := andThen_forall _ _ (addDuration R m.logType ms) h0
    (addDuration_gated R m.logType r ms)
  have h2 := andThen_forall _ _ (addRequestID R m.logType r) h1 (addRequestID_gated R _ r)
  have h3 := andThen_forall _ _ (addName R m.logType r) h2 (addName_gated R _ r)
  exact andThen_forall _ _ (addParams R m.logType r) h3 (addParams_gated R _ r)

/-! ### When `prepareLog` returns -/

theorem andThen_isOk {L : Type} (p : Prepared L) (f : L → Prepared L)
    (hp : ∃ l, p.result = .ok l) (hf : ∀ l, ∃ l2, (f l).result = .ok l2) :
    ∃ l2, (p.andThen f).result = .ok l2 := by
  obtain ⟨l, hl⟩ := hp
  rw [andThen_result, hl]
  exact hf l

theorem andThen_error_left {L : Type} (p : Prepared L) (f : L → Prepared L) (e : Value)
    (hp : p.result = .error e) : (p.andThen f).result = .error e := by
  rw [andThen_result, hp]

theorem andThen_error_right {L : Type} (p : Prepared L) (f : L → Prepared L) (e : Value)
    (hp : ∃ l, p.result = .ok l) (hf : ∀ l, (f l).result = .error e) :
    (p.andThen f).result = .error e := by
  obtain ⟨l, hl⟩ := hp
  rw [andThen_result, hl]
  exact hf l

theorem addDuration_isOk {L : Type} (R : Int) (t : LogType L) (ms : Int) (l : L) :
    ∃ l2, (addDuration R t ms l).result = .ok l2 := by
  rw [addDuration_eq]
  cases enabled R ResourceDuration <;> cases t.asTimed <;> exact ⟨_, rfl⟩

theorem addParams_isOk {L : Type} (R : Int) (t : LogType L) (r : Request) (l : L) :
    ∃ l2, (addParams R t r l).result = .ok l2 := by
  rw [addParams_eq]
  cases enabled R ResourceParams <;> cases t.asParams <;> exact ⟨_, rfl⟩

theorem addRequestID_isOk {L : Type} (R : Int) (t : LogType L) (r : Request) (l : L)
    (h : idAssertionFails R t r.ctx = false) :
    ∃ l2, (addRequestID R t r l).result = .ok l2 := by
  rw [addRequestID_eq]
  unfold idAssertionFails requestIDIsString at h
  cases h1 : enabled R ResourceRequestID <;> cases h2 : t.asRequestID <;>
    try exact ⟨_, rfl⟩
  cases h3 : r.ctx.Value ContextRequestID with
  | none => simp [h1, h2, h3] at h
  | some v => cases v <;> first | exact ⟨_, rfl⟩ | simp [h1, h2, h3] at h

theorem addName_isOk {L : Type} (R : Int) (t : LogType L) (r : Request) (l : L)
    (h : nameAssertionFails R t r.ctx = false) :
    ∃ l2, (addName R t r l).result = .ok l2 := by
  rw [addName_eq]
  unfold nameAssertionFails routeNameIsString at h
  cases h1 : enabled R ResourceName <;> cases h2 : t.asNamed <;>
    cases h3 : r.ctx.Value ContextRouteName <;> try exact ⟨_, rfl⟩
  rename_i f v
  cases v <;> first | exact ⟨_, rfl⟩ | simp [h1, h2, h3] at h

theorem addName_isError {L : Type} (R : Int) (t : LogType L) (r : Request) (l : L)
    (h : nameAssertionFails R t r.ctx = true) :
    (addName R t r l).result = .error (.err "interface conversion: interface is not string") := by
  rw [addName_eq]
  unfold nameAssertionFails routeNameIsString at h
  cases h1 : enabled R ResourceName <;> cases h2 : t.asNamed <;>
    cases h3 : r.ctx.Value ContextRouteName <;> try simp [h1, h2, h3] at h
  rename_i f v
  cases v <;> first | rfl | simp [h1, h2, h3] at h

/-- `prepareLog` returns a Record when neither type assertion fails. -/
theorem prepareLog_isOk {σ L : Type} (R : Int) (m : Middleware σ L) (r : Request)
    (sw : statusWriter σ) (ms : Int) (hid : idAssertionFails R m.logType r.ctx = false)
    (hn : nameAssertionFails R m.logType r.ctx = false) :
    ∃ l, (prepareLog R m r sw ms).result = .ok l := by
  unfold prepareLog
  refine andThen_isOk _ _ (andThen_isOk _ _ (andThen_isOk _ _ (andThen_isOk _ _ ⟨_, rfl⟩
    (addDuration_isOk R _ ms)) (fun l => addRequestID_isOk R _ r l hid))
    (fun l => addName_isOk R _ r l hn)) (addParams_isOk R _ r)

theorem addRequestID_isError {L : Type} (R : Int) (t : LogType L) (r : Request) (l : L)
    (h : idAssertionFails R t r.ctx = true) :
    (addRequestID R t r l).result =
      .error (.err "interface conversion: interface is not string") := by
  rw [addRequestID_eq]
  unfold idAssertionFails requestIDIsString at h
  cases h1 : enabled R ResourceRequestID <;> cases h2 : t.asRequestID <;>
    try simp [h1, h2] at h
  cases h3 : r.ctx.Value ContextRequestID with
  | none => rfl
  | some v => cases v <;> first | rfl | simp [h1, h2, h3] at h

/-- `prepareLog` panics when one of its two type assertions fails. -/
theorem prepareLog_isError {σ L : Type} (R : Int) (m : Middleware σ L) (r : Request)
    (sw : statusWriter σ) (ms : Int)
    (h : idAssertionFails R m.logType r.ctx = true ∨
      nameAssertionFails R m.logType r.ctx = true) :
    (prepareLog R m r sw ms).result =
      .error (.err "interface conversion: interface is not string") := by
  unfold prepareLog
  cases hid : idAssertionFails R m.logType r.ctx with
  | true =>
    exact andThen_error_left _ _ _ (andThen_error_left _ _ _ (andThen_error_right _ _ _
      (andThen_isOk _ _ ⟨_, rfl⟩ (addDuration_isOk R _ ms))
      (fun l => addRequestID_isError R _ r l hid)))
  | false =>
    have hn : nameAssertionFails R m.logType r.ctx = true := by
      rcases h with h | h
      · rw [hid] at h; cases h
      · exact h
    exact andThen_error_left _ _ _ (andThen_error_right _ _ _ (andThen_isOk _ _
      (andThen_isOk _ _ ⟨_, rfl⟩ (addDuration_isOk R _ ms))
      (fun l => addRequestID_isOk R _ r l hid)) (fun l => addName_isError R _ r l hn))

/-! ### The request the inner handler sees -/

theorem Value_attachRequestID (R : Int) (o : Oracles) (r : Request) (key : CtxKey)
    (h : key ≠ ContextRequestID) :
    (attachRequestID R o r).ctx.Value key = r.ctx.Value key := by
  unfold attachRequestID
  cases enabled R ResourceRequestID
  · rfl
  · simp [Request.WithContext, Context.WithValue, Context.Value, Ne.symm h]

theorem requestID_attachRequestID (R : Int) (o : Oracles) (r : Request)
    (h : enabled R ResourceRequestID = true) :
    (attachRequestID R o r).ctx.Value ContextRequestID = some (.str o.uuid.String) := by
  unfold attachRequestID
  simp [h, Request.WithContext, Context.WithValue, Context.Value]

/-- Once the request-ID bit was set at entry, the type assertion of the
request-ID step cannot fail, whatever the value of `Resources` read later. -/
theorem idAssertion_entry_set {L : Type} (R R2 : Int) (t : LogType L) (o : Oracles)
    (r : Request) (h : enabled R ResourceRequestID = true) :
    idAssertionFails R2 t (attachRequestID R o r).ctx = false := by
  unfold idAssertionFails requestIDIsString
  rw [requestID_attachRequestID R o r h]
  simp

/-- While `Resources` keeps its value, the type assertion of the request-ID step
cannot fail. -/
theorem idAssertion_attachRequestID {L : Type} (R : Int) (t : LogType L) (o : Oracles)
    (r : Request) : idAssertionFails R t (attachRequestID R o r).ctx = false := by
  cases h : enabled R ResourceRequestID
  · simp [idAssertionFails, h]
  · exact idAssertion_entry_set R R t o r h

theorem nameAssertion_attachRequestID {L : Type} (R R2 : Int) (t : LogType L) (o : Oracles)
    (r : Request) :
    nameAssertionFails R2 t (attachRequestID R o r).ctx = nameAssertionFails R2 t r.ctx := by
  unfold nameAssertionFails routeNameIsString
  rw [Value_attachRequestID R o r ContextRouteName (by decide)]

/-! ## The pipeline: dispatch -/

theorem prepareLog_kind_mem {σ L : Type} (R : Int) (m : Middleware σ L) (r : Request)
    (sw : statusWriter σ) (ms : Int) (k : EventKind)
    (h : k ∈ kinds (prepareLog R m r sw ms).events) :
    k ∈ [EventKind.NewLog, .SetDuration, .SetRequestID, .SetName, .SetParams] :=
  (prepareLog_kinds R m r sw ms).subset h

theorem sent_prepareLog {σ L : Type} (R : Int) (m : Middleware σ L) (r : Request)
    (sw : statusWriter σ) (ms : Int) : sent (prepareLog R m r sw ms).events = [] := by
  apply sent_eq_nil
  intro h
  have := prepareLog_kind_mem R m r sw ms _ h
  simp at this

/-- The events before the inner handler runs. -/
theorem sent_entry {L : Type} (R : Int) :
    sent (if enabled R ResourceRequestID then [Event.UUIDNew] else ([] : List (Event L))) = [] := by
  cases enabled R ResourceRequestID <;> rfl

theorem handler_of_panic {σ L : Type} (F : Flags) (m : Middleware σ L) (W : WriterImpl σ)
    (o : Oracles) (inner : Request → HandlerProg) (w : σ) (r : Request) (v : Value)
    (hp : ((inner (attachRequestID F.atEntry o r)).run W (statusWriter.fresh w)).2 = some v) :
    handler F m W o inner w r =
      recovered F.deferred m W o (attachRequestID F.atEntry o r)
        ((inner (attachRequestID F.atEntry o r)).run W (statusWriter.fresh w)).1 v
        (if enabled F.atEntry ResourceRequestID then [.UUIDNew] else []) := by
  simp only [handler, hp]

theorem handler_of_return {σ L : Type} (F : Flags) (m : Middleware σ L) (W : WriterImpl σ)
    (o : Oracles) (inner : Request → HandlerProg) (w : σ) (r : Request)
    (hr : ((inner (attachRequestID F.atEntry o r)).run W (statusWriter.fresh w)).2 = none)
    (l : L)
    (hl : (prepareLog F.afterInner m (attachRequestID F.atEntry o r)
      ((inner (attachRequestID F.atEntry o r)).run W (statusWriter.fresh w)).1
      o.elapsed).result = .ok l) :
    handler F m W o inner w r =
      ⟨attachRequestID F.atEntry o r,
        ((inner (attachRequestID F.atEntry o r)).run W (statusWriter.fresh w)).1,
        (if enabled F.atEntry ResourceRequestID then [.UUIDNew] else []) ++
          (prepareLog F.afterInner m (attachRequestID F.atEntry o r)
            ((inner (attachRequestID F.atEntry o r)).run W (statusWriter.fresh w)).1
            o.elapsed).events ++
          (match m.logType.asChecker with
            | some Check => if Check l then [.Check l, .Send l] else [.Check l]
            | none => [.Send l]), none⟩ := by
  simp only [handler, hr, hl]
  cases m.logType.asChecker with
  | none => rfl
  | some Check => cases h : Check l <;> simp [h]

theorem handler_of_return_error {σ L : Type} (F : Flags) (m : Middleware σ L)
    (W : WriterImpl σ) (o : Oracles) (inner : Request → HandlerProg) (w : σ) (r : Request)
    (hr : ((inner (attachRequestID F.atEntry o r)).run W (statusWriter.fresh w)).2 = none)
    (e : Value)
    (hl : (prepareLog F.afterInner m (attachRequestID F.atEntry o r)
      ((inner (attachRequestID F.atEntry o r)).run W (statusWriter.fresh w)).1
      o.elapsed).result = .error e) :
    handler F m W o inner w r =
      recovered F.deferred m W o (attachRequestID F.atEntry o r)
        ((inner (attachRequestID F.atEntry o r)).run W (statusWriter.fresh w)).1 e
        ((if enabled F.atEntry ResourceRequestID then [.UUIDNew] else []) ++
          (prepareLog F.afterInner m (attachRequestID F.atEntry o r)
            ((inner (attachRequestID F.atEntry o r)).run W (statusWriter.fresh w)).1
            o.elapsed).events) := by
  simp only [handler, hr, hl]

theorem recovered_of_ok {σ L : Type} (R : Int) (m : Middleware σ L) (W : WriterImpl σ)
    (o : Oracles) (r : Request) (sw : statusWriter σ) (v : Value) (before : List (Event L))
    (l : L)
    (hl : (prepareLog R m r ((sw.WriteHeader W 500).Write W errorBody).1
      o.elapsedDeferred).result = .ok l) :
    recovered R m W o r sw v before =
      ⟨r, ((sw.WriteHeader W 500).Write W errorBody).1,
        before ++ [.Println v] ++
          (prepareLog R m r ((sw.WriteHeader W 500).Write W errorBody).1
            o.elapsedDeferred).events ++
          (match m.logType.asError with
            | some SetError => [.SetError (some v), .Send (SetError l (some v))]
            | none => [.Send l]), none⟩ := by
  simp only [recovered, StatusInternalServerError, hl]
  cases m.logType.asError <;> rfl

theorem recovered_of_error {σ L : Type} (R : Int) (m : Middleware σ L) (W : WriterImpl σ)
    (o : Oracles) (r : Request) (sw : statusWriter σ) (v : Value) (before : List (Event L))
    (e : Value)
    (hl : (prepareLog R m r ((sw.WriteHeader W 500).Write W errorBody).1
      o.elapsedDeferred).result = .error e) :
    recovered R m W o r sw v before =
      ⟨r, ((sw.WriteHeader W 500).Write W errorBody).1,
        before ++ [.Println v] ++
          (prepareLog R m r ((sw.WriteHeader W 500).Write W errorBody).1
            o.elapsedDeferred).events, some e⟩ := by
  simp only [recovered, StatusInternalServerError, hl]

/-! ### The Record of the default sink after enrichment -/

theorem addDuration_console (R : Int) (ms : Int) (l l2 : LogRequest)
    (h : (addDuration R LogRequest.logType ms l).result = .ok l2) :
    l2 = if enabled R ResourceDuration then l.SetDuration ms else l := by
  rw [addDuration_eq] at h
  cases h1 : enabled R ResourceDuration <;> simp [h1, LogRequest.logType] at h <;> simp [h]

theorem addRequestID_console (R : Int) (r : Request) (l l2 : LogRequest)
    (h : (addRequestID R LogRequest.logType r l).result = .ok l2) :
    (enabled R ResourceRequestID = true →
      ∃ id, r.ctx.Value ContextRequestID = some (.str id) ∧ l2 = l.SetRequestID id) ∧
    (enabled R ResourceRequestID = false → l2 = l) := by
  rw [addRequestID_eq] at h
  cases h1 : enabled R ResourceRequestID
  · simp [h1] at h
    simp [h]
  · simp only [h1, LogRequest.logType] at h
    cases h3 : r.ctx.Value ContextRequestID with
    | none => simp [h3, assertString] at h
    | some v =>
      cases v <;> simp [h3, assertString] at h
      simp [h]

theorem addName_console (R : Int) (r : Request) (l l2 : LogRequest)
    (h : (addName R LogRequest.logType r l).result = .ok l2) :
    ∃ name, l2 = { l with RouteName := name } := by
  rw [addName_eq] at h
  cases h1 : enabled R ResourceName
  · simp [h1] at h
    exact ⟨l.RouteName, h.symm⟩
  · simp only [h1, LogRequest.logType] at h
    cases h3 : r.ctx.Value ContextRouteName with
    | none =>
      simp [h3] at h
      exact ⟨l.RouteName, h.symm⟩
    | some v =>
      cases v <;> simp [h3] at h
      rename_i s
      exact ⟨s, by rw [← h]; rfl⟩

theorem addParams_console (R : Int) (r : Request) (l l2 : LogRequest)
    (h : (addParams R LogRequest.logType r l).result = .ok l2) :
    l2 = if enabled R ResourceParams then l.SetParams (r.ctx.Value ContextParams) else l := by
  rw [addParams_eq] at h
  cases h1 : enabled R ResourceParams <;> simp [h1, LogRequest.logType] at h <;> simp [h]

/-- What the Record of the default sink holds when `prepareLog` returns it. -/
theorem prepareLog_console {σ : Type} (R : Int) (r : Request) (sw : statusWriter σ)
    (ms : Int) (l : LogRequest)
    (h : (prepareLog R (NewOutputConsole σ) r sw ms).result = .ok l) :
    l.Status = sw.status ∧ l.ContentLength = sw.length ∧ l.Error = none ∧
    (enabled R ResourceRequestID = true →
      r.ctx.Value ContextRequestID = some (.str l.RequestID)) ∧
    (enabled R ResourceRequestID = false → l.RequestID = "") ∧
    (enabled R ResourceParams = true → l.Params = r.ctx.Value ContextParams) := by
  unfold prepareLog at h
  obtain ⟨l3, h3, h4, -⟩ := andThen_ok_split _ _ _ h
  obtain ⟨l2, h2, h3, -⟩ := andThen_ok_split _ _ _ h3
  obtain ⟨l1, h1, h2, -⟩ := andThen_ok_split _ _ _ h2
  obtain ⟨l0, h0, h1, -⟩ := andThen_ok_split _ _ _ h1
  have e0 : l0 = NewLog r (some sw) := by
    simp only [NewOutputConsole] at h0
    cases h0
    rfl
  have e1 := addDuration_console R ms l0 l1 h1
  have e2 := addRequestID_console R r l1 l2 h2
  obtain ⟨name, e3⟩ := addName_console R r l2 l3 h3
  have e4 := addParams_console R r l3 l h4
  have hl0 : l0.Status = sw.status ∧ l0.ContentLength = sw.length ∧ l0.Error = none ∧
      l0.RequestID = "" := by
    rw [e0]
    unfold NewLog
    cases r.Dump <;> simp [LogRequest.zero]
  have hl1 : l1.Status = l0.Status ∧ l1.ContentLength = l0.ContentLength ∧
      l1.Error = l0.Error ∧ l1.RequestID = l0.RequestID := by
    rw [e1]
    cases enabled R ResourceDuration <;> simp [LogRequest.SetDuration]
  have hl2 : l2.Status = l1.Status ∧ l2.ContentLength = l1.ContentLength ∧
      l2.Error = l1.Error := by
    cases hb : enabled R ResourceRequestID
    · rw [e2.2 hb]
      simp
    · obtain ⟨id, -, hid⟩ := e2.1 hb
      rw [hid]
      simp [LogRequest.SetRequestID]
  have hl3 : l3.Status = l2.Status ∧ l3.ContentLength = l2.ContentLength ∧
      l3.Error = l2.Error ∧ l3.RequestID = l2.RequestID := by
    rw [e3]
    simp
  have hl4 : l.Status = l3.Status ∧ l.ContentLength = l3.ContentLength ∧
      l.Error = l3.Error ∧ l.RequestID = l3.RequestID ∧
      (enabled R ResourceParams = true → l.Params = r.ctx.Value ContextParams) := by
    rw [e4]
    cases enabled R ResourceParams <;> simp [LogRequest.SetParams]
  refine ⟨?_, ?_, ?_, ?_, ?_, hl4.2.2.2.2⟩
  · rw [hl4.1, hl3.1, hl2.1, hl1.1, hl0.1]
  · rw [hl4.2.1, hl3.2.1, hl2.2.1, hl1.2.1, hl0.2.1]
  · rw [hl4.2.2.1, hl3.2.2.1, hl2.2.2, hl1.2.2.1, hl0.2.2.1]
  · intro hb
    obtain ⟨id, hv, hid⟩ := e2.1 hb
    rw [hl4.2.2.2.1, hl3.2.2.2, hid, hv]
    simp [LogRequest.SetRequestID]
  · intro hb
    rw [hl4.2.2.2.1, hl3.2.2.2, e2.2 hb, hl1.2.2.2, hl0.2.2.2]

theorem count_Send {L : Type} (es : List (Event L)) :
    (kinds es).count .Send = (sent es).length := by
  induction es with
  | nil => rfl
  | cons e rest ih =>
    cases e <;> simp_all [kinds, sent, Event.kind, List.count_cons]

theorem kinds_append {L : Type} (a b : List (Event L)) : kinds (a ++ b) = kinds a ++ kinds b := by
  simp [kinds]

theorem kinds_entry {L : Type} (R : Int) (k : EventKind)
    (h : k ∈ kinds (if enabled R ResourceRequestID then [Event.UUIDNew] else
      ([] : List (Event L)))) : k = .UUIDNew := by
  cases hb : enabled R ResourceRequestID <;> simp [hb, kinds, Event.kind] at h
  exact h

/-- C5 (as amended): when the inner handler panics with `v`, and neither type
assertion of `prepareLog` fails under the value of `Resources` read in the
deferred function (the request-ID bit is not set there with a Record that
implements the request-ID setter and a context without a string under
`ContextRequestID`, and the name bit is not set there with a Record that
implements the name-setter and a context with a value that is not a string under
`ContextRouteName`), then `prepareLog` returns a Record in the deferred
function, exactly one `Send` is launched, it carries that Record after
`SetError(v)` when the Record implements the error-setter (the Record as it is
otherwise), `Check` is not called, and no panic leaves the handler. -/
theorem handler_panic_sends_once {σ L : Type} (F : Flags) (m : Middleware σ L)
    (W : WriterImpl σ) (o : Oracles) (inner : Request → HandlerProg) (w : σ) (r : Request)
    (v : Value)
    (hp : ((inner (attachRequestID F.atEntry o r)).run W (statusWriter.fresh w)).2 = some v)
    (hid : idAssertionFails F.deferred m.logType (attachRequestID F.atEntry o r).ctx = false)
    (hn : nameAssertionFails F.deferred m.logType r.ctx = false) :
    ∃ l, (prepareLog F.deferred m (attachRequestID F.atEntry o r)
        (handler F m W o inner w r).sw o.elapsedDeferred).result = .ok l ∧
      sent (handler F m W o inner w r).events =
        [match m.logType.asError with
          | some SetError => SetError l (some v)
          | none => l] ∧
      (kinds (handler F m W o inner w r).events).count .Send = 1 ∧
      (m.logType.asError.isSome = true →
        Event.SetError (some v) ∈ (handler F m W o inner w r).events) ∧
      EventKind.Check ∉ kinds (handler F m W o inner w r).events ∧
      (handler F m W o inner w r).panic = none := by
  have hn1 : nameAssertionFails F.deferred m.logType (attachRequestID F.atEntry o r).ctx =
      false := by
    rw [nameAssertion_attachRequestID]; exact hn
  obtain ⟨l, hl⟩ := prepareLog_isOk F.deferred m (attachRequestID F.atEntry o r)
    (((((inner (attachRequestID F.atEntry o r)).run W
      (statusWriter.fresh w)).1.WriteHeader W 500).Write W errorBody).1)
    o.elapsedDeferred hid hn1
  have hs : sent (handler F m W o inner w r).events =
      [match m.logType.asError with
        | some SetError => SetError l (some v)
        | none => l] := by
    rw [handler_of_panic F m W o inner w r v hp, recovered_of_ok _ m W o _ _ v _ l hl]
    simp only [sent_append, sent_entry, sent_prepareLog]
    cases m.logType.asError <;> rfl
  refine ⟨l, ?_, hs, ?_, ?_, ?_, ?_⟩
  · rw [handler_of_panic F m W o inner w r v hp, recovered_of_ok _ m W o _ _ v _ l hl]
    exact hl
  · rw [count_Send, hs]
    rfl
  · intro he
    rw [handler_of_panic F m W o inner w r v hp, recovered_of_ok _ m W o _ _ v _ l hl]
    cases hc : m.logType.asError with
    | none => simp [hc] at he
    | some f => simp
  · rw [handler_of_panic F m W o inner w r v hp, recovered_of_ok _ m W o _ _ v _ l hl]
    simp only [kinds_append, List.mem_append, not_or]
    refine ⟨⟨⟨?_, ?_⟩, ?_⟩, ?_⟩
    · intro h
      cases kinds_entry _ _ h
    · simp [kinds, Event.kind]
    · intro h
      have := prepareLog_kind_mem _ m _ _ _ _ h
      simp at this
    · cases m.logType.asError <;> simp [kinds, Event.kind]
  · rw [handler_of_panic F m W o inner w r v hp, recovered_of_ok _ m W o _ _ v _ l hl]

/-- The amended C5 at the default flags and the default sink, for a handler that
writes three bytes and panics: one `Send` is launched. -/
theorem handler_panic_sends_once_witness :
    (kinds (handler (Flags.const ResourcesDefault) (NewOutputConsole Unit) acceptAll
      sampleOracles panickingInner () namedRequest).events).count .Send = 1 := by
  obtain ⟨_, _, _, h, _⟩ := handler_panic_sends_once (Flags.const ResourcesDefault)
    (NewOutputConsole Unit) acceptAll sampleOracles panickingInner () namedRequest
    (.str "boom") (by decide) (by decide) (by decide)
  exact h

/-- C5 as stated fails, in two ways.  At the default flags, unchanged during the
request, and the default sink, for a request whose context holds the `int` 7
under `ContextRouteName`, the inner handler panics and no `Send` is launched.
And for a request with an empty context, when `Resources` has the request-ID bit
clear at entry (28) and set once the inner handler has ended (30), the inner
handler panics and no `Send` is launched. -/
theorem handler_panic_sends_once_counterexample :
    (((panickingInner (attachRequestID ResourcesDefault sampleOracles intNamedRequest)).run
        acceptAll (statusWriter.fresh ())).2 = some (.str "boom") ∧
      sent (handler (Flags.const ResourcesDefault) (NewOutputConsole Unit) acceptAll
        sampleOracles panickingInner () intNamedRequest).events = [] ∧
      (kinds (handler (Flags.const ResourcesDefault) (NewOutputConsole Unit) acceptAll
        sampleOracles panickingInner () intNamedRequest).events).count .Send = 0) ∧
    (((panickingInner (attachRequestID 28 sampleOracles sampleRequest)).run
        acceptAll (statusWriter.fresh ())).2 = some (.str "boom") ∧
      sent (handler ⟨28, 30, 30⟩ (NewOutputConsole Unit) acceptAll sampleOracles
        panickingInner () sampleRequest).events = [] ∧
      (kinds (handler ⟨28, 30, 30⟩ (NewOutputConsole Unit) acceptAll sampleOracles
        panickingInner () sampleRequest).events).count .Send = 0) := by
  decide

/-- C6 (as amended): when the inner handler returns, and neither type assertion
of `prepareLog` fails under the value of `Resources` read after the inner
handler (the request-ID bit is not set there with a Record that implements the
request-ID setter and a context without a string under `ContextRequestID`, and
the name bit is not set there with a Record that implements the name-setter and
a context with a value that is not a string under `ContextRouteName`), then
`prepareLog` returns a Record, and `Send` is launched for it, once, exactly when
the Record does not implement the send-checker or `Check` returns true for it;
when `Check` returns false no `Send` is launched. -/
theorem handler_return_dispatch {σ L : Type} (F : Flags) (m : Middleware σ L)
    (W : WriterImpl σ) (o : Oracles) (inner : Request → HandlerProg) (w : σ) (r : Request)
    (hr : ((inner (attachRequestID F.atEntry o r)).run W (statusWriter.fresh w)).2 = none)
    (hid : idAssertionFails F.afterInner m.logType (attachRequestID F.atEntry o r).ctx = false)
    (hn : nameAssertionFails F.afterInner m.logType r.ctx = false) :
    ∃ l, (prepareLog F.afterInner m (attachRequestID F.atEntry o r)
        (handler F m W o inner w r).sw o.elapsed).result = .ok l ∧
      sent (handler F m W o inner w r).events =
        (match m.logType.asChecker with
          | some Check => if Check l then [l] else []
          | none => [l]) ∧
      ((kinds (handler F m W o inner w r).events).count .Send = 1 ↔
        (m.logType.asChecker = none ∨
          ∃ Check, m.logType.asChecker = some Check ∧ Check l = true)) ∧
      ((kinds (handler F m W o inner w r).events).count .Send = 0 ↔
        ∃ Check, m.logType.asChecker = some Check ∧ Check l = false) ∧
      (handler F m W o inner w r).panic = none := by
  have hn1 : nameAssertionFails F.afterInner m.logType (attachRequestID F.atEntry o r).ctx =
      false := by
    rw [nameAssertion_attachRequestID]; exact hn
  obtain ⟨l, hl⟩ := prepareLog_isOk F.afterInner m (attachRequestID F.atEntry o r)
    ((inner (attachRequestID F.atEntry o r)).run W (statusWriter.fresh w)).1 o.elapsed hid hn1
  have hs : sent (handler F m W o inner w r).events =
      (match m.logType.asChecker with
        | some Check => if Check l then [l] else []
        | none => [l]) := by
    rw [handler_of_return F m W o inner w r hr l hl]
    simp only [sent_append, sent_entry, sent_prepareLog]
    cases m.logType.asChecker with
    | none => rfl
    | some Check => cases hc : Check l <;> simp [hc, sent]
  refine ⟨l, ?_, hs, ?_, ?_, ?_⟩
  · rw [handler_of_return F m W o inner w r hr l hl]
    exact hl
  · rw [count_Send, hs]
    cases m.logType.asChecker with
    | none => simp
    | some Check => cases hc : Check l <;> simp [hc]
  · rw [count_Send, hs]
    cases m.logType.asChecker with
    | none => simp
    | some Check => cases hc : Check l <;> simp [hc]
  · rw [handler_of_return F m W o inner w r hr l hl]

/-- The amended C6 at a sink whose Records implement the send-checker: the
handler writes status 404, `Check` refuses the Record 404, and no `Send` is
launched. -/
theorem handler_return_dispatch_witness :
    sent (handler (Flags.const ResourcesDefault) checkingSink acceptAll sampleOracles
      returningInner () sampleRequest).events = [] := by
  obtain ⟨l, h1, h2, _⟩ := handler_return_dispatch (Flags.const ResourcesDefault) checkingSink
    acceptAll sampleOracles returningInner () sampleRequest (by decide) (by decide)
    (by decide)
  have hl : l = 404 := by
    have h3 : (prepareLog (Flags.const ResourcesDefault).afterInner checkingSink
        (attachRequestID (Flags.const ResourcesDefault).atEntry sampleOracles sampleRequest)
        (handler (Flags.const ResourcesDefault) checkingSink acceptAll sampleOracles
          returningInner () sampleRequest).sw sampleOracles.elapsed).result = .ok 404 := rfl
    rw [h3] at h1
    cases h1
    rfl
  rw [h2, hl]
  rfl

/-- C6 as stated fails, in two ways, under the default sink, whose Record does
not implement the send-checker.  At the default flags, unchanged during the
request, for a request whose context holds the `int` 7 under `ContextRouteName`,
the inner handler returns and no `Send` is launched.  And for a request with an
empty context, when `Resources` has the request-ID bit clear at entry (28) and
set once the inner handler has ended (30), the inner handler returns and no
`Send` is launched. -/
theorem handler_return_dispatch_counterexample :
    (NewOutputConsole Unit).logType.asChecker.isNone = true ∧
    (((returningInner (attachRequestID ResourcesDefault sampleOracles intNamedRequest)).run
        acceptAll (statusWriter.fresh ())).2 = none ∧
      sent (handler (Flags.const ResourcesDefault) (NewOutputConsole Unit) acceptAll
        sampleOracles returningInner () intNamedRequest).events = []) ∧
    (((returningInner (attachRequestID 28 sampleOracles sampleRequest)).run
        acceptAll (statusWriter.fresh ())).2 = none ∧
      sent (handler ⟨28, 30, 30⟩ (NewOutputConsole Unit) acceptAll sampleOracles
        returningInner () sampleRequest).events = []) := by
  decide

theorem status_recovered {σ : Type} (W : WriterImpl σ) (sw : statusWriter σ) :
    ((sw.WriteHeader W 500).Write W errorBody).1.status = 500 ∧
    ((sw.WriteHeader W 500).Write W errorBody).1.length =
      wrapInt (sw.length + (W.Write (W.WriteHeader sw.ResponseWriter 500) errorBody).2.1) ∧
    ((sw.WriteHeader W 500).Write W errorBody).1.ResponseWriter =
      (W.Write (W.WriteHeader sw.ResponseWriter 500) errorBody).1 := by
  simp [statusWriter.Write, statusWriter.WriteHeader]

/-- C9 (as amended): when the inner handler panics with `v` under the default
sink, and neither type assertion of `prepareLog` fails under the value of
`Resources` read in the deferred function (the request-ID bit is not set there
with a context without a string under `ContextRequestID`, and the name bit is
not set there with a context that holds a value that is not a string under
`ContextRouteName`), the pipeline calls `WriteHeader(500)` and then `Write` of
the fixed 34-byte body on the recorder, which forwards both to the wrapped
writer, no panic leaves the handler, and the one Record that is sent has status
500, the error `v`, and as content length the Go `int` sum (wrapping at 64 bits,
so the exact sum whenever that lies within the range of `int`) of the length
recorded before the panic and the byte count the wrapped writer returned for
the fixed body. -/
theorem handler_panic_response {σ : Type} (F : Flags) (W : WriterImpl σ) (o : Oracles)
    (inner : Request → HandlerProg) (w : σ) (r : Request) (v : Value)
    (hp : ((inner (attachRequestID F.atEntry o r)).run W (statusWriter.fresh w)).2 = some v)
    (hid : idAssertionFails F.deferred LogRequest.logType
      (attachRequestID F.atEntry o r).ctx = false)
    (hn : nameAssertionFails F.deferred LogRequest.logType r.ctx = false) :
    (handler F (NewOutputConsole σ) W o inner w r).sw =
      ((((inner (attachRequestID F.atEntry o r)).run W (statusWriter.fresh w)).1.WriteHeader W
        StatusInternalServerError).Write W errorBody).1 ∧
    (handler F (NewOutputConsole σ) W o inner w r).sw.ResponseWriter =
      (W.Write (W.WriteHeader
        ((inner (attachRequestID F.atEntry o r)).run W
          (statusWriter.fresh w)).1.ResponseWriter 500) errorBody).1 ∧
    errorBody.length = 34 ∧
    (handler F (NewOutputConsole σ) W o inner w r).panic = none ∧
    ∃ l, sent (handler F (NewOutputConsole σ) W o inner w r).events = [l] ∧
      l.Status = 500 ∧
      l.ContentLength =
        wrapInt (((inner (attachRequestID F.atEntry o r)).run W
            (statusWriter.fresh w)).1.length +
          (W.Write (W.WriteHeader
            ((inner (attachRequestID F.atEntry o r)).run W
              (statusWriter.fresh w)).1.ResponseWriter 500) errorBody).2.1) ∧
      (-9223372036854775808 ≤
          ((inner (attachRequestID F.atEntry o r)).run W (statusWriter.fresh w)).1.length +
            (W.Write (W.WriteHeader
              ((inner (attachRequestID F.atEntry o r)).run W
                (statusWriter.fresh w)).1.ResponseWriter 500) errorBody).2.1 →
        ((inner (attachRequestID F.atEntry o r)).run W (statusWriter.fresh w)).1.length +
            (W.Write (W.WriteHeader
              ((inner (attachRequestID F.atEntry o r)).run W
                (statusWriter.fresh w)).1.ResponseWriter 500) errorBody).2.1 <
          9223372036854775808 →
        l.ContentLength =
          ((inner (attachRequestID F.atEntry o r)).run W (statusWriter.fresh w)).1.length +
            (W.Write (W.WriteHeader
              ((inner (attachRequestID F.atEntry o r)).run W
                (statusWriter.fresh w)).1.ResponseWriter 500) errorBody).2.1) ∧
      l.Error = some v := by
  have hn1 : nameAssertionFails F.deferred LogRequest.logType
      (attachRequestID F.atEntry o r).ctx = false := by
    rw [nameAssertion_attachRequestID]; exact hn
  obtain ⟨l, hl⟩ := prepareLog_isOk F.deferred (NewOutputConsole σ)
    (attachRequestID F.atEntry o r)
    (((((inner (attachRequestID F.atEntry o r)).run W
      (statusWriter.fresh w)).1.WriteHeader W 500).Write W errorBody).1)
    o.elapsedDeferred hid hn1
  have hf := prepareLog_console F.deferred _ _ _ l hl
  have hs := status_recovered W
    ((inner (attachRequestID F.atEntry o r)).run W (statusWriter.fresh w)).1
  have hc : (l.SetError (some v)).ContentLength =
      wrapInt (((inner (attachRequestID F.atEntry o r)).run W
          (statusWriter.fresh w)).1.length +
        (W.Write (W.WriteHeader
          ((inner (attachRequestID F.atEntry o r)).run W
            (statusWriter.fresh w)).1.ResponseWriter 500) errorBody).2.1) := by
    show l.ContentLength = _
    rw [hf.2.1, hs.2.1]
  rw [handler_of_panic F _ W o inner w r v hp, recovered_of_ok _ _ W o _ _ v _ l hl]
  refine ⟨rfl, hs.2.2, by decide, rfl, l.SetError (some v), ?_, ?_, hc, ?_, rfl⟩
  · simp only [sent_append, sent_entry, sent_prepareLog]
    rfl
  · show l.Status = 500
    rw [hf.1, hs.1]
  · intro lo hi
    rw [hc, wrapInt_of_range _ lo hi]

/-- The amended C9 at the default flags, for a handler that writes three bytes
and panics: the Record sent has status 500 and content length 3 + 34. -/
theorem handler_panic_response_witness :
    ∃ l, sent (handler (Flags.const ResourcesDefault) (NewOutputConsole Unit) acceptAll
        sampleOracles panickingInner () namedRequest).events = [l] ∧
      l.Status = 500 ∧ l.ContentLength = 37 := by
  obtain ⟨_, _, _, _, l, h1, h2, h3, _⟩ := handler_panic_response
    (Flags.const ResourcesDefault) acceptAll sampleOracles panickingInner () namedRequest
    (.str "boom") (by decide) (by decide) (by decide)
  exact ⟨l, h1, h2, by rw [h3]; decide⟩

/-- C9 as stated fails, in three ways, under the default sink.  At the default
flags, unchanged during the request, for a request whose context holds the `int`
7 under `ContextRouteName`, the inner handler panics and the run-time panic of
the failed type assertion in the deferred function leaves the handler.  For a
request with an empty context, when `Resources` has the request-ID bit clear at
entry (28) and set once the inner handler has ended (30), the same happens.  And
when the wrapped writer reports `math.MaxInt64` bytes for every `Write`, the
length recorded before the panic is `math.MaxInt64`, the count returned for the
fixed body is `math.MaxInt64`, and the content length of the Record sent is
-2. -/
theorem handler_panic_response_counterexample :
    (((panickingInner (attachRequestID ResourcesDefault sampleOracles intNamedRequest)).run
        acceptAll (statusWriter.fresh ())).2 = some (.str "boom") ∧
      (handler (Flags.const ResourcesDefault) (NewOutputConsole Unit) acceptAll sampleOracles
        panickingInner () intNamedRequest).panic =
        some (.err "interface conversion: interface is not string")) ∧
    (((panickingInner (attachRequestID 28 sampleOracles sampleRequest)).run
        acceptAll (statusWriter.fresh ())).2 = some (.str "boom") ∧
      (handler ⟨28, 30, 30⟩ (NewOutputConsole Unit) acceptAll sampleOracles
        panickingInner () sampleRequest).panic =
        some (.err "interface conversion: interface is not string")) ∧
    (((panickingInner (attachRequestID ResourcesDefault sampleOracles namedRequest)).run
        maxCountWriter (statusWriter.fresh ())) =
        (⟨(), 200, 9223372036854775807⟩, some (.str "boom")) ∧
      (sent (handler (Flags.const ResourcesDefault) (NewOutputConsole Unit) maxCountWriter
        sampleOracles panickingInner () namedRequest).events).map
        (fun l => l.ContentLength) = [-2]) := by
  decide

/-- The route name that `WithNamed` stores is a string, so behind `WithNamed` the
type assertion of the name step cannot fail. -/
theorem nameAssertion_WithNamed {L : Type} (R : Int) (t : LogType L) (r : Request)
    (name : String) :
    nameAssertionFails R t
      ((r.WithContext (r.ctx.WithValue ContextRouteName (some (.str name)))).WithContext
        (r.ctx.WithValue ContextRouteName (some (.str name)))).ctx = false := by
  simp [nameAssertionFails, routeNameIsString, Request.WithContext, Context.WithValue,
    Context.Value]

/-- The cases the amended claims exclude are failing ones, for a panicking inner
handler: when one of the type assertions of `prepareLog` fails under the value
of `Resources` read in the deferred function, no `Send` is launched and the
run-time panic of the assertion leaves the handler. -/
theorem handler_panic_assertion_fails {σ L : Type} (F : Flags) (m : Middleware σ L)
    (W : WriterImpl σ) (o : Oracles) (inner : Request → HandlerProg) (w : σ) (r : Request)
    (v : Value)
    (hp : ((inner (attachRequestID F.atEntry o r)).run W (statusWriter.fresh w)).2 = some v)
    (h : idAssertionFails F.deferred m.logType (attachRequestID F.atEntry o r).ctx = true ∨
      nameAssertionFails F.deferred m.logType r.ctx = true) :
    sent (handler F m W o inner w r).events = [] ∧
    (handler F m W o inner w r).panic =
      some (.err "interface conversion: interface is not string") := by
  have h1 : idAssertionFails F.deferred m.logType (attachRequestID F.atEntry o r).ctx = true ∨
      nameAssertionFails F.deferred m.logType (attachRequestID F.atEntry o r).ctx = true := by
    rw [nameAssertion_attachRequestID]; exact h
  rw [handler_of_panic F m W o inner w r v hp,
    recovered_of_error _ m W o _ _ v _ _ (prepareLog_isError _ m _ _ _ h1)]
  simp [sent_append, sent_entry, sent_prepareLog, sent]

/-- The cases the amended claims exclude are failing ones, for a returning inner
handler: when one of the type assertions of `prepareLog` fails under the value
of `Resources` read after the inner handler and one under the value read in the
deferred function, no `Send` is launched and the run-time panic of the assertion
leaves the handler. -/
theorem handler_return_assertion_fails {σ L : Type} (F : Flags) (m : Middleware σ L)
    (W : WriterImpl σ) (o : Oracles) (inner : Request → HandlerProg) (w : σ) (r : Request)
    (hr : ((inner (attachRequestID F.atEntry o r)).run W (statusWriter.fresh w)).2 = none)
    (h : idAssertionFails F.afterInner m.logType (attachRequestID F.atEntry o r).ctx = true ∨
      nameAssertionFails F.afterInner m.logType r.ctx = true)
    (hd : idAssertionFails F.deferred m.logType (attachRequestID F.atEntry o r).ctx = true ∨
      nameAssertionFails F.deferred m.logType r.ctx = true) :
    sent (handler F m W o inner w r).events = [] ∧
    (handler F m W o inner w r).panic =
      some (.err "interface conversion: interface is not string") := by
  have h1 : idAssertionFails F.afterInner m.logType (attachRequestID F.atEntry o r).ctx =
        true ∨
      nameAssertionFails F.afterInner m.logType (attachRequestID F.atEntry o r).ctx = true := by
    rw [nameAssertion_attachRequestID]; exact h
  have h2 : idAssertionFails F.deferred m.logType (attachRequestID F.atEntry o r).ctx = true ∨
      nameAssertionFails F.deferred m.logType (attachRequestID F.atEntry o r).ctx = true := by
    rw [nameAssertion_attachRequestID]; exact hd
  rw [handler_of_return_error F m W o inner w r hr _ (prepareLog_isError _ m _ _ _ h1),
    recovered_of_error _ m W o _ _ _ _ _ (prepareLog_isError _ m _ _ _ h2)]
  simp [sent_append, sent_entry, sent_prepareLog, sent]

/-! ### The request ID -/

theorem UUID_String_ne_empty (u : UUID) : u.String ≠ "" := by
  intro h
  have h2 := congrArg String.length h
  simp [UUID.String, String.length] at h2

theorem recovered_seen {σ L : Type} (R : Int) (m : Middleware σ L) (W : WriterImpl σ)
    (o : Oracles) (r : Request) (sw : statusWriter σ) (v : Value) (before : List (Event L)) :
    (recovered R m W o r sw v before).seen = r := by
  unfold recovered
  simp only []
  split
  · rfl
  · split <;> rfl

/-- Every Record sent by the deferred function is one that `prepareLog` returned
for the same request, possibly after `SetError`. -/
theorem recovered_sent {σ L : Type} (R : Int) (m : Middleware σ L) (W : WriterImpl σ)
    (o : Oracles) (r : Request) (sw : statusWriter σ) (v : Value) (before : List (Event L))
    (hb : sent before = []) :
    ∀ x ∈ sent (recovered R m W o r sw v before).events,
      ∃ (sw2 : statusWriter σ) (ms : Int) (l : L),
        (prepareLog R m r sw2 ms).result = .ok l ∧
        (x = l ∨ ∃ f e, m.logType.asError = some f ∧ x = f l e) := by
  intro x hx
  cases hl : (prepareLog R m r ((sw.WriteHeader W 500).Write W errorBody).1
      o.elapsedDeferred).result with
  | error e =>
    rw [recovered_of_error R m W o r sw v before e hl] at hx
    simp [sent_append, hb, sent_prepareLog, sent] at hx
  | ok l =>
    rw [recovered_of_ok R m W o r sw v before l hl] at hx
    simp only [sent_append, hb, sent_prepareLog] at hx
    refine ⟨_, _, l, hl, ?_⟩
    cases hc : m.logType.asError with
    | none =>
      simp [hc, sent] at hx
      exact Or.inl hx
    | some f =>
      simp [hc, sent] at hx
      exact Or.inr ⟨f, _, rfl, hx⟩

theorem recovered_kinds {σ L : Type} (R : Int) (m : Middleware σ L) (W : WriterImpl σ)
    (o : Oracles) (r : Request) (sw : statusWriter σ) (v : Value) (before : List (Event L)) :
    (kinds (recovered R m W o r sw v before).events).count .UUIDNew =
      (kinds before).count .UUIDNew := by
  have hp : (kinds (prepareLog R m r ((sw.WriteHeader W 500).Write W errorBody).1
      o.elapsedDeferred).events).count .UUIDNew = 0 := by
    apply List.count_eq_zero_of_not_mem
    intro h
    have := prepareLog_kind_mem R m _ _ _ _ h
    simp at this
  cases hl : (prepareLog R m r ((sw.WriteHeader W 500).Write W errorBody).1
      o.elapsedDeferred).result with
  | error e =>
    rw [recovered_of_error R m W o r sw v before e hl]
    simp only [kinds_append, List.count_append, hp]
    simp [kinds, Event.kind]
  | ok l =>
    rw [recovered_of_ok R m W o r sw v before l hl]
    simp only [kinds_append, List.count_append, hp]
    cases m.logType.asError <;> simp [kinds, Event.kind]

/-- The shape of every run of the wrapped handler: the request the inner handler
sees, the number of identifiers generated, and where the Records sent come
from. -/
theorem handler_shape {σ L : Type} (F : Flags) (m : Middleware σ L) (W : WriterImpl σ)
    (o : Oracles) (inner : Request → HandlerProg) (w : σ) (r : Request) :
    (handler F m W o inner w r).seen = attachRequestID F.atEntry o r ∧
    (kinds (handler F m W o inner w r).events).count .UUIDNew =
      (if enabled F.atEntry ResourceRequestID then 1 else 0) ∧
    ∀ x ∈ sent (handler F m W o inner w r).events,
      ∃ (R2 : Int) (sw2 : statusWriter σ) (ms : Int) (l : L),
        (R2 = F.afterInner ∨ R2 = F.deferred) ∧
        (prepareLog R2 m (attachRequestID F.atEntry o r) sw2 ms).result = .ok l ∧
        (x = l ∨ ∃ f e, m.logType.asError = some f ∧ x = f l e) := by
  have hev : (kinds (if enabled F.atEntry ResourceRequestID then [Event.UUIDNew] else
      ([] : List (Event L)))).count .UUIDNew =
      (if enabled F.atEntry ResourceRequestID then 1 else 0) := by
    cases enabled F.atEntry ResourceRequestID <;> rfl
  have hpk : ∀ (R2 : Int) (sw2 : statusWriter σ) (ms : Int),
      (kinds (prepareLog R2 m (attachRequestID F.atEntry o r) sw2 ms).events).count
        .UUIDNew = 0 := by
    intro R2 sw2 ms
    apply List.count_eq_zero_of_not_mem
    intro h
    have := prepareLog_kind_mem R2 m _ _ _ _ h
    simp at this
  have hrec : ∀ (sw : statusWriter σ) (v : Value) (before : List (Event L)),
      sent before = [] →
      ∀ x ∈ sent (recovered F.deferred m W o (attachRequestID F.atEntry o r) sw v
          before).events,
        ∃ (R2 : Int) (sw2 : statusWriter σ) (ms : Int) (l : L),
          (R2 = F.afterInner ∨ R2 = F.deferred) ∧
          (prepareLog R2 m (attachRequestID F.atEntry o r) sw2 ms).result = .ok l ∧
          (x = l ∨ ∃ f e, m.logType.asError = some f ∧ x = f l e) := by
    intro sw v before hb x hx
    obtain ⟨sw2, ms, l, hl, hx2⟩ := recovered_sent _ m W o _ sw v before hb x hx
    exact ⟨F.deferred, sw2, ms, l, Or.inr rfl, hl, hx2⟩
  cases hr : ((inner (attachRequestID F.atEntry o r)).run W (statusWriter.fresh w)).2 with
  | some v =>
    rw [handler_of_panic F m W o inner w r v hr]
    exact ⟨recovered_seen _ _ _ _ _ _ _ _, by rw [recovered_kinds, hev],
      hrec _ _ _ (sent_entry _)⟩
  | none =>
    cases hl : (prepareLog F.afterInner m (attachRequestID F.atEntry o r)
        ((inner (attachRequestID F.atEntry o r)).run W (statusWriter.fresh w)).1
        o.elapsed).result with
    | error e =>
      rw [handler_of_return_error F m W o inner w r hr e hl]
      refine ⟨recovered_seen _ _ _ _ _ _ _ _, ?_, hrec _ _ _ ?_⟩
      · rw [recovered_kinds, kinds_append, List.count_append, hev, hpk]
        rfl
      · rw [sent_append, sent_entry, sent_prepareLog]
        rfl
    | ok l =>
      rw [handler_of_return F m W o inner w r hr l hl]
      refine ⟨rfl, ?_, ?_⟩
      · simp only [kinds_append, List.count_append, hev, hpk]
        cases m.logType.asChecker with
        | none => simp [kinds, Event.kind]
        | some Check => cases hc : Check l <;> simp [hc, kinds, Event.kind]
      · intro x hx
        simp only [sent_append, sent_entry, sent_prepareLog] at hx
        refine ⟨F.afterInner, _, _, l, Or.inl rfl, hl, Or.inl ?_⟩
        cases hk : m.logType.asChecker with
        | none => simpa [hk, sent] using hx
        | some Check => cases hc : Check l <;> simp [hk, hc, sent] at hx; exact hx

theorem attachRequestID_off (R : Int) (o : Oracles) (r : Request)
    (h : enabled R ResourceRequestID = false) : attachRequestID R o r = r := by
  simp [attachRequestID, h]

theorem attachRequestID_on (R : Int) (o : Oracles) (r : Request)
    (h : enabled R ResourceRequestID = true) :
    attachRequestID R o r =
      r.WithContext (r.ctx.WithValue ContextRequestID (some (.str o.uuid.String))) := by
  simp [attachRequestID, h]

/-- The request ID of a Record of the default sink that the pipeline sends. -/
theorem sent_RequestID {σ : Type} (R : Int) (W : WriterImpl σ) (o : Oracles)
    (inner : Request → HandlerProg) (w : σ) (r : Request) :
    ∀ x ∈ sent (handler (Flags.const R) (NewOutputConsole σ) W o inner w r).events,
      x.RequestID = if enabled R ResourceRequestID then o.uuid.String else "" := by
  intro x hx
  obtain ⟨R2, sw2, ms, l, hR, hl, hx2⟩ :=
    (handler_shape (Flags.const R) (NewOutputConsole σ) W o inner w r).2.2 x hx
  have hR2 : R2 = R := by
    rcases hR with h | h <;> exact h
  rw [hR2] at hl
  have hl2 : (prepareLog R (NewOutputConsole σ) (attachRequestID R o r) sw2 ms).result =
      .ok l := hl
  have hf := prepareLog_console R (attachRequestID R o r) sw2 ms l hl2
  have hxl : x.RequestID = l.RequestID := by
    rcases hx2 with h | ⟨f, e, hf2, h⟩
    · rw [h]
    · have : f = LogRequest.SetError := by
        simp [NewOutputConsole, LogRequest.logType] at hf2
        exact hf2.symm
      rw [h, this]
      rfl
  rw [hxl]
  cases hb : enabled R ResourceRequestID
  · simpa using hf.2.2.2.2.1 hb
  · have h1 := hf.2.2.2.1 hb
    rw [requestID_attachRequestID R o r hb] at h1
    simp only [Option.some.injEq, Value.str.injEq] at h1
    simp [← h1]

/-- C7: under the default sink and flags that stay as they are during the
request (`Flags.const R`).  With the request-ID bit set, one identifier is generated, the inner
handler sees the request with that identifier stored as a string under
`ContextRequestID`, the type assertion of `prepareLog` on it succeeds, the
identifier is not empty, every Record that `prepareLog` returns and every Record
sent carries it, and Records of two requests whose identifiers differ carry
different IDs.  With the bit clear, no identifier is generated, the inner
handler sees the request as it came, and the Records carry the empty ID.  In
both cases `prepareLog` returns a Record for that request unless the type
assertion of its name step fails. -/
theorem handler_request_id {σ : Type} (R : Int) (W : WriterImpl σ) (o : Oracles)
    (inner : Request → HandlerProg) (w : σ) (r : Request) :
    (enabled R ResourceRequestID = true →
      (handler (Flags.const R) (NewOutputConsole σ) W o inner w r).seen =
        r.WithContext (r.ctx.WithValue ContextRequestID (some (.str o.uuid.String))) ∧
      assertString ((handler (Flags.const R) (NewOutputConsole σ) W o inner w r).seen.ctx.Value
        ContextRequestID) = .ok o.uuid.String ∧
      idAssertionFails R LogRequest.logType
        (handler (Flags.const R) (NewOutputConsole σ) W o inner w r).seen.ctx = false ∧
      o.uuid.String ≠ "" ∧
      (kinds (handler (Flags.const R) (NewOutputConsole σ) W o inner w r).events).count .UUIDNew = 1 ∧
      (∀ (sw : statusWriter σ) (ms : Int) (l : LogRequest),
        (prepareLog R (NewOutputConsole σ)
          (handler (Flags.const R) (NewOutputConsole σ) W o inner w r).seen sw ms).result = .ok l →
        l.RequestID = o.uuid.String) ∧
      (∀ l ∈ sent (handler (Flags.const R) (NewOutputConsole σ) W o inner w r).events,
        l.RequestID = o.uuid.String ∧ l.RequestID ≠ "") ∧
      (∀ (o2 : Oracles) (inner2 : Request → HandlerProg) (w2 : σ) (r2 : Request),
        o.uuid.String ≠ o2.uuid.String →
        ∀ l ∈ sent (handler (Flags.const R) (NewOutputConsole σ) W o inner w r).events,
        ∀ l2 ∈ sent (handler (Flags.const R) (NewOutputConsole σ) W o2 inner2 w2 r2).events,
          l.RequestID ≠ l2.RequestID) ∧
      (nameAssertionFails R LogRequest.logType r.ctx = false →
        ∀ (sw : statusWriter σ) (ms : Int), ∃ l,
          (prepareLog R (NewOutputConsole σ)
            (handler (Flags.const R) (NewOutputConsole σ) W o inner w r).seen sw ms).result = .ok l)) ∧
    (enabled R ResourceRequestID = false →
      (handler (Flags.const R) (NewOutputConsole σ) W o inner w r).seen = r ∧
      EventKind.UUIDNew ∉ kinds (handler (Flags.const R) (NewOutputConsole σ) W o inner w r).events ∧
      (∀ (sw : statusWriter σ) (ms : Int) (l : LogRequest),
        (prepareLog R (NewOutputConsole σ)
          (handler (Flags.const R) (NewOutputConsole σ) W o inner w r).seen sw ms).result = .ok l →
        l.RequestID = "") ∧
      (∀ l ∈ sent (handler (Flags.const R) (NewOutputConsole σ) W o inner w r).events,
        l.RequestID = "") ∧
      (nameAssertionFails R LogRequest.logType r.ctx = false →
        ∀ (sw : statusWriter σ) (ms : Int), ∃ l,
          (prepareLog R (NewOutputConsole σ)
            (handler (Flags.const R) (NewOutputConsole σ) W o inner w r).seen sw ms).result = .ok l)) := by
  have hsh : (handler (Flags.const R) (NewOutputConsole σ) W o inner w r).seen =
        attachRequestID R o r ∧
      (kinds (handler (Flags.const R) (NewOutputConsole σ) W o inner w r).events).count
        .UUIDNew = (if enabled R ResourceRequestID then 1 else 0) :=
    ⟨(handler_shape (Flags.const R) (NewOutputConsole σ) W o inner w r).1,
      (handler_shape (Flags.const R) (NewOutputConsole σ) W o inner w r).2.1⟩
  have hsent := sent_RequestID R W o inner w r
  have hex : nameAssertionFails R LogRequest.logType r.ctx = false →
      ∀ (sw : statusWriter σ) (ms : Int), ∃ l,
        (prepareLog R (NewOutputConsole σ)
          (handler (Flags.const R) (NewOutputConsole σ) W o inner w r).seen sw ms).result = .ok l := by
    intro hn sw ms
    rw [hsh.1]
    refine prepareLog_isOk R _ _ sw ms (idAssertion_attachRequestID R _ o r) ?_
    rw [nameAssertion_attachRequestID]
    exact hn
  constructor
  · intro hb
    have hv := requestID_attachRequestID R o r hb
    refine ⟨?_, ?_, ?_, UUID_String_ne_empty _, ?_, ?_, ?_, ?_, hex⟩
    · rw [hsh.1, attachRequestID_on R o r hb]
    · rw [hsh.1, hv]
      rfl
    · rw [hsh.1]
      exact idAssertion_attachRequestID R _ o r
    · rw [hsh.2]
      simp [hb]
    · intro sw ms l hl
      rw [hsh.1] at hl
      have h1 := (prepareLog_console R _ sw ms l hl).2.2.2.1 hb
      rw [hv] at h1
      simp only [Option.some.injEq, Value.str.injEq] at h1
      exact h1.symm
    · intro l hl
      have h1 := hsent l hl
      simp only [hb, if_true] at h1
      exact ⟨h1, by rw [h1]; exact UUID_String_ne_empty _⟩
    · intro o2 inner2 w2 r2 hne l hl l2 hl2
      have h1 := hsent l hl
      have h2 := sent_RequestID R W o2 inner2 w2 r2 l2 hl2
      simp only [hb, if_true] at h1 h2
      rw [h1, h2]
      exact hne
  · intro hb
    refine ⟨?_, ?_, ?_, ?_, hex⟩
    · rw [hsh.1, attachRequestID_off R o r hb]
    · intro h
      have h1 := hsh.2
      simp only [hb] at h1
      exact (List.count_pos_iff.mpr h).ne' h1
    · intro sw ms l hl
      exact (prepareLog_console R _ sw ms l hl).2.2.2.2.1 hb
    · intro l hl
      have h1 := hsent l hl
      simpa [hb] using h1

/-- C7 at the default flags, for a handler that writes a 404 header and three
bytes and returns: a Record is sent and carries the generated identifier. -/
theorem handler_request_id_witness :
    sent (handler (Flags.const ResourcesDefault) (NewOutputConsole Unit) acceptAll sampleOracles
      returningInner () namedRequest).events ≠ [] ∧
    ∀ l ∈ sent (handler (Flags.const ResourcesDefault) (NewOutputConsole Unit) acceptAll sampleOracles
      returningInner () namedRequest).events,
      l.RequestID = "01020304-0506-0708-090a-0b0c0d0e0f10" ∧ l.RequestID ≠ "" :=
  ⟨by decide,
    ((handler_request_id ResourcesDefault acceptAll sampleOracles returningInner ()
      namedRequest).1 (by decide)).2.2.2.2.2.2.1⟩

/-! ### Gating of the enrichment -/

theorem addDuration_kinds_eq {L : Type} (R : Int) (t : LogType L) (ms : Int) (l : L) :
    kinds (addDuration R t ms l).events =
      if enabled R ResourceDuration && t.asTimed.isSome then [.SetDuration] else [] := by
  rw [addDuration_eq]
  cases enabled R ResourceDuration <;> cases t.asTimed <;> rfl

theorem addParams_kinds_eq {L : Type} (R : Int) (t : LogType L) (r : Request) (l : L) :
    kinds (addParams R t r l).events =
      if enabled R ResourceParams && t.asParams.isSome then [.SetParams] else [] := by
  rw [addParams_eq]
  cases enabled R ResourceParams <;> cases t.asParams <;> rfl

theorem addRequestID_kinds_eq {L : Type} (R : Int) (t : LogType L) (r : Request) (l l2 : L)
    (h : (addRequestID R t r l).result = .ok l2) :
    kinds (addRequestID R t r l).events =
      if enabled R ResourceRequestID && t.asRequestID.isSome then [.SetRequestID] else [] := by
  rw [addRequestID_eq] at h ⊢
  cases h1 : enabled R ResourceRequestID <;> cases h2 : t.asRequestID <;> try rfl
  cases h3 : assertString (r.ctx.Value ContextRequestID) with
  | error e => simp [h1, h2, h3] at h
  | ok id => rfl

theorem addName_kinds_eq {L : Type} (R : Int) (t : LogType L) (r : Request) (l l2 : L)
    (h : (addName R t r l).result = .ok l2) :
    kinds (addName R t r l).events =
      if enabled R ResourceName && t.asNamed.isSome &&
          (r.ctx.Value ContextRouteName).isSome then [.SetName] else [] := by
  rw [addName_eq] at h ⊢
  cases h1 : enabled R ResourceName <;> cases h2 : t.asNamed <;>
    cases h3 : r.ctx.Value ContextRouteName <;> try rfl
  rename_i f v
  cases v <;> first | rfl | simp [h1, h2, h3] at h

theorem enabled_zero :
    enabled 0 ResourceDuration = false ∧ enabled 0 ResourceRequestID = false ∧
    enabled 0 ResourceName = false ∧ enabled 0 ResourceParams = false := by
  decide

/-- C10: for every value of `Resources`, every sink, request and recorder, the
calls `prepareLog` makes are, in this order and each at most once, the factory
and the setters of duration, request ID, name and params; a setter is called
only if its own bit is set and the Record implements it, the name setter only if
the context holds a route name as well; when `prepareLog` returns, each of
these conditions also suffices, whatever the other bits; with `Resources = 0`
it returns the Record as the factory built it; and with the params bit set the
Record the default sink gets back holds the context value under
`ContextParams`.  `prepareLog` returns whenever neither of its two type
assertions fails. -/
theorem prepareLog_gating {σ L : Type} (R : Int) (m : Middleware σ L) (r : Request)
    (sw : statusWriter σ) (ms : Int) :
    (kinds (prepareLog R m r sw ms).events).Sublist
      [.NewLog, .SetDuration, .SetRequestID, .SetName, .SetParams] ∧
    (∀ k : EventKind, (kinds (prepareLog R m r sw ms).events).count k ≤ 1) ∧
    (∀ e ∈ (prepareLog R m r sw ms).events, gated R m.logType r e) ∧
    (∀ l, (prepareLog R m r sw ms).result = .ok l →
      kinds (prepareLog R m r sw ms).events =
        [.NewLog] ++
        (if enabled R ResourceDuration && m.logType.asTimed.isSome then [.SetDuration]
          else []) ++
        (if enabled R ResourceRequestID && m.logType.asRequestID.isSome then [.SetRequestID]
          else []) ++
        (if enabled R ResourceName && m.logType.asNamed.isSome &&
            (r.ctx.Value ContextRouteName).isSome then [.SetName] else []) ++
        (if enabled R ResourceParams && m.logType.asParams.isSome then [.SetParams]
          else [])) ∧
    ((prepareLog 0 m r sw ms).events = [.NewLog] ∧
      (prepareLog 0 m r sw ms).result = .ok (m.NewLog r (some sw))) ∧
    (enabled R ResourceParams = true →
      ∀ l, (prepareLog R (NewOutputConsole σ) r sw ms).result = .ok l →
        l.Params = r.ctx.Value ContextParams) ∧
    (idAssertionFails R m.logType r.ctx = false →
      nameAssertionFails R m.logType r.ctx = false →
      ∃ l, (prepareLog R m r sw ms).result = .ok l) := by
  refine ⟨prepareLog_kinds R m r sw ms, ?_, prepareLog_gated R m r sw ms, ?_, ?_, ?_,
    prepareLog_isOk R m r sw ms⟩
  · intro k
    refine ((prepareLog_kinds R m r sw ms).count_le k).trans ?_
    cases k <;> decide
  · intro l h
    unfold prepareLog at h ⊢
    obtain ⟨l3, h3, h4, e4⟩ := andThen_ok_split _ _ _ h
    obtain ⟨l2, h2, h3b, e3⟩ := andThen_ok_split _ _ _ h3
    obtain ⟨l1, h1, h2b, e2⟩ := andThen_ok_split _ _ _ h2
    obtain ⟨l0, h0, h1b, e1⟩ := andThen_ok_split _ _ _ h1
    rw [e4, e3, e2, e1]
    simp only [kinds_append, addDuration_kinds_eq, addParams_kinds_eq,
      addRequestID_kinds_eq R _ r l1 l2 h2b, addName_kinds_eq R _ r l2 l3 h3b]
    rfl
  · unfold prepareLog
    simp [Prepared.andThen, addDuration, addRequestID, addName, addParams, enabled_zero.1,
      enabled_zero.2.1, enabled_zero.2.2.1, enabled_zero.2.2.2]
  · intro hb l hl
    exact (prepareLog_console R r sw ms l hl).2.2.2.2.2 hb

/-- C10 at the default flags, the default sink and a request whose context holds
a route name and params: `prepareLog` returns a Record. -/
theorem prepareLog_gating_witness :
    ∃ l, (prepareLog ResourcesDefault (NewOutputConsole Unit)
      (attachRequestID ResourcesDefault sampleOracles namedRequest) (statusWriter.fresh ())
      12).result = .ok l :=
  (prepareLog_gating ResourcesDefault (NewOutputConsole Unit)
    (attachRequestID ResourcesDefault sampleOracles namedRequest) (statusWriter.fresh ())
    12).2.2.2.2.2.2 (by decide) (by decide)

/-! ## The structured rendering -/

theorem Marshal_key_mem (fs : List StructField) (name : String) (content : JsonObject)
    (h : Marshal fs = .ok content)
    (hf : ∃ f ∈ fs, omitEmpty f.tag = false ∧ tagName f.tag = name) :
    name ∈ content.keys := by
  induction fs generalizing content with
  | nil =>
    obtain ⟨f, hm, -⟩ := hf
    cases hm
  | cons g rest ih =>
    obtain ⟨f, hm, ho, hn⟩ := hf
    unfold Marshal at h
    by_cases hskip : (omitEmpty g.tag && isEmptyValue g.value) = true
    · rw [if_pos hskip] at h
      rcases List.mem_cons.mp hm with hfg | hfr
      · subst hfg
        simp [ho] at hskip
      · exact ih content h ⟨f, hfr, ho, hn⟩
    · rw [if_neg hskip] at h
      cases he : encodeField g.value with
      | error e => simp [he] at h
      | ok j =>
        cases hr : Marshal rest with
        | error e => simp [he, hr] at h
        | ok more =>
          simp only [he, hr] at h
          cases h
          rcases List.mem_cons.mp hm with hfg | hfr
          · subst hfg
            simp [JsonObject.keys, hn]
          · have := ih more hr ⟨f, hfr, ho, hn⟩
            simp only [JsonObject.keys, List.map_cons, List.mem_cons]
            exact Or.inr this

theorem Marshal_key_source (fs : List StructField) (name : String) (content : JsonObject)
    (h : Marshal fs = .ok content) (hk : name ∈ content.keys) :
    ∃ f ∈ fs, tagName f.tag = name ∧ (omitEmpty f.tag && isEmptyValue f.value) = false := by
  induction fs generalizing content with
  | nil =>
    simp only [Marshal, Except.ok.injEq] at h
    subst h
    simp [JsonObject.keys] at hk
  | cons g rest ih =>
    unfold Marshal at h
    by_cases hskip : (omitEmpty g.tag && isEmptyValue g.value) = true
    · rw [if_pos hskip] at h
      obtain ⟨f, hf, h1, h2⟩ := ih content h hk
      exact ⟨f, List.mem_cons_of_mem _ hf, h1, h2⟩
    · rw [if_neg hskip] at h
      cases he : encodeField g.value with
      | error e => simp [he] at h
      | ok j =>
        cases hr : Marshal rest with
        | error e => simp [he, hr] at h
        | ok more =>
          simp only [he, hr] at h
          cases h
          simp only [JsonObject.keys, List.map_cons, List.mem_cons] at hk
          rcases hk with hk | hk
          · exact ⟨g, List.mem_cons_self _ _, hk.symm, by simpa using hskip⟩
          · obtain ⟨f, hf, h1, h2⟩ := ih more hr hk
            exact ⟨f, List.mem_cons_of_mem _ hf, h1, h2⟩

/-- The six optional fields whose tag spells `omitempty` are emitted only when
they are populated. -/
theorem ToJSON_optional_keys (l : LogRequest) :
    ("params" ∈ l.ToJSON.keys → l.Params ≠ none) ∧
    ("query_string" ∈ l.ToJSON.keys → l.QueryString ≠ "") ∧
    ("remote_ip" ∈ l.ToJSON.keys → l.RemoteIP ≠ "") ∧
    ("route_name" ∈ l.ToJSON.keys → l.RouteName ≠ "") ∧
    ("status" ∈ l.ToJSON.keys → l.Status ≠ 0) ∧
    ("dump" ∈ l.ToJSON.keys → l.Dump ≠ none) := by
  have key : ∀ name : String, name ≠ "error" → name ∈ l.ToJSON.keys →
      ∃ f ∈ l.jsonFields, tagName f.tag = name ∧
        (omitEmpty f.tag && isEmptyValue f.value) = false := by
    intro name hne hk
    unfold LogRequest.ToJSON at hk
    cases h : Marshal l.jsonFields with
    | error e =>
      simp [h, JsonObject.keys] at hk
      exact absurd hk hne
    | ok content =>
      simp only [h] at hk
      exact Marshal_key_source _ _ _ h hk
  refine ⟨?_, ?_, ?_, ?_, ?_, ?_⟩ <;> intro hk
  all_goals
    obtain ⟨f, hf, hn, hs⟩ := key _ (by decide) hk
    simp only [LogRequest.jsonFields, List.mem_cons, List.mem_singleton, List.mem_nil_iff,
      or_false] at hf
    rcases hf with rfl | rfl | rfl | rfl | rfl | rfl | rfl | rfl | rfl | rfl | rfl | rfl | rfl
    all_goals dsimp only at hn hs
    all_goals first
      | exact absurd hn (by decide)
      | (intro h0; rw [h0] at hs; exact absurd hs (by decide))

/-- C8, the code at a Record whose error was never set: for every `LogRequest`,
`ToJSON` emits a member `"error"`, because the tag of the field `Error` spells
its option `omitmepty`, which is not the option `omitempty`; for the zero
`LogRequest` the output holds `"error": null` next to the fields that are always
emitted, while the six other optional fields, all empty, are left out. -/
theorem ToJSON_error_always_emitted :
    (∀ l : LogRequest, "error" ∈ l.ToJSON.keys) ∧
    LogRequest.zero.Error = none ∧
    omitEmpty "error,omitmepty" = false ∧
    LogRequest.zero.ToJSON =
      [("duration", .num 0), ("method", .str ""), ("content_length", .num 0),
       ("path", .str ""), ("request_id", .str ""), ("user_agent", .str ""),
       ("error", .null)] := by
  refine ⟨?_, by decide, by decide, by decide⟩
  intro l
  unfold LogRequest.ToJSON
  cases h : Marshal l.jsonFields with
  | error e => simp [JsonObject.keys]
  | ok content =>
    exact Marshal_key_mem _ _ _ h
      ⟨⟨"error,omitmepty", .iface l.Error⟩, by simp [LogRequest.jsonFields],
        (by decide : omitEmpty "error,omitmepty" = false),
        (by decide : tagName "error,omitmepty" = "error")⟩

end httplog
